import Mathlib

/-!
Verification of the analytical engine of the gold-price dashboard.

The development shallowly embeds the four analytical service modules
(metrics calculator, swing finder, pattern detector, news quantifier,
signal predictor) as executable Lean functions over ℚ (JS numbers are
modelled as exact rationals; dates are modelled as integer day numbers,
so `differenceInDays a b` becomes `a - b`).  The embedded definitions
follow the TypeScript source line by line; explanation strings whose
contents no theorem depends on are reproduced without the numeric
interpolation of the source.  `Math.sqrt` is modelled by an abstract
function parameter constrained only where a theorem needs it.
-/

namespace GoldFrontend

/-- One trading day of the gold price series, with derived metrics.
Derived fields are `none` until enough history exists (`null` in the
source).  Shared record shape of `brain.ts`, `patternDetector.ts`,
`quantifier.ts` and `predictor.ts`. -/
structure PricePoint where
  id : Nat := 0
  date : Int := 0
  closePrice : ℚ := 0
  dailyChange : Option ℚ := none
  dailyChangePct : Option ℚ := none
  volatility7d : Option ℚ := none
  volatility30d : Option ℚ := none
  sma20 : Option ℚ := none
  sma50 : Option ℚ := none
  sma200 : Option ℚ := none
deriving DecidableEq, Inhabited

/-- JS truthiness of a nullable number: `null` and `0` are falsy. -/
def truthy : Option ℚ → Bool
  | none => false
  | some v => v != 0

/-- `Math.max` over a list, as applied to a nonempty spread. -/
def listMax : List ℚ → ℚ
  | [] => 0
  | x :: xs => xs.foldl max x

/-- `Math.min` over a list, as applied to a nonempty spread. -/
def listMin : List ℚ → ℚ
  | [] => 0
  | x :: xs => xs.foldl min x

/-- Insertion step used by `sortBy`. -/
def insertBy (le : α → α → Bool) (x : α) : List α → List α
  | [] => [x]
  | y :: ys => if le x y then x :: y :: ys else y :: insertBy le x ys

/-- A sorting function modelling `Array.prototype.sort` with a comparator;
`le a b` means `a` may come before `b`. -/
def sortBy (le : α → α → Bool) : List α → List α
  | [] => []
  | x :: xs => insertBy le x (sortBy le xs)

theorem mem_insertBy {le : α → α → Bool} {x a : α} {l : List α} :
    a ∈ insertBy le x l ↔ a = x ∨ a ∈ l := by
  induction l with
  | nil => simp [insertBy]
  | cons y ys ih =>
    by_cases h : le x y
    · simp [insertBy, h]
    · simp [insertBy, h, ih]; tauto

theorem mem_sortBy {le : α → α → Bool} {a : α} {l : List α} :
    a ∈ sortBy le l ↔ a ∈ l := by
  induction l with
  | nil => simp [sortBy]
  | cons x xs ih => simp [sortBy, mem_insertBy, ih]

theorem getD_map (l : List α) (f : α → β) (i : Nat) (d : α) :
    (l.map f).getD i (f d) = f (l.getD i d) := by
  induction l generalizing i with
  | nil => simp
  | cons x xs ih => cases i <;> simp [ih]

theorem map_range_getD (l : List α) (f : α → β) (d : α) :
    (List.range l.length).map (fun i => f (l.getD i d)) = l.map f := by
  induction l with
  | nil => simp
  | cons x xs ih =>
    simp only [List.length_cons, List.range_succ_eq_map, List.map_cons, List.map_map]
    refine congrArg₂ _ rfl ?_
    rw [← ih]
    exact List.map_congr_left fun i _ => by simp [Function.comp]

theorem getD_map_range {n i : Nat} (g : Nat → α) (d : α) (h : i < n) :
    ((List.range n).map g).getD i d = g i := by
  rw [List.getD_eq_getElem?_getD, List.getElem?_map, List.getElem?_range h]
  rfl

/-! ## Metrics Calculator (`CsvImportService.calculateDerivedMetrics`, brain.ts) -/

namespace Metrics

/-- The daily returns feeding the `w`-day volatility at index `i`:
`for (let j = i - (w-1); j <= i; j++) if (j > 0) push((c[j]-c[j-1])/c[j-1])`. -/
def returnsWindow (closes : List ℚ) (i w : Nat) : List ℚ :=
  ((List.range w).map (fun k => i + 1 + k - w)).filter (fun j => 0 < j) |>.map
    (fun j => (closes.getD j 0 - closes.getD (j - 1) 0) / closes.getD (j - 1) 0)

/-- Population variance: `reduce((a,b) => a + (b-mean)^2, 0) / length`. -/
def popVariance (l : List ℚ) : ℚ :=
  let mean := l.sum / l.length
  (l.map (fun x => (x - mean) ^ 2)).sum / l.length

/-- `volatility_w` at index `i`: defined once `i ≥ w`, as
`sqrt(variance of the w returns ending at i) * 100`. -/
def volatilityAt (sqr : ℚ → ℚ) (closes : List ℚ) (i w : Nat) : Option ℚ :=
  if w ≤ i then
    let rs := returnsWindow closes i w
    if 0 < rs.length then some (sqr (popVariance rs) * 100) else none
  else none

/-- `sma_n` at index `i`: `i ≥ n-1 ? slice(i-n+1, i+1).sum / n : null`. -/
def smaAt (closes : List ℚ) (i n : Nat) : Option ℚ :=
  if n ≤ i + 1 then some (((closes.drop (i + 1 - n)).take n).sum / n) else none

/-- The per-index update of `calculateDerivedMetrics`: rewrites all derived
fields of one record from the close-price series.  `dailyChange` is null
only at `i = 0` (`prev ? curr - prev : null`); `dailyChangePct` is null at
`i = 0` or when the previous close is `0`. -/
def applyDerived (sqr : ℚ → ℚ) (closes : List ℚ) (i : Nat) (p : PricePoint) : PricePoint :=
  { p with
    dailyChange :=
      if i = 0 then none else some (closes.getD i 0 - closes.getD (i - 1) 0),
    dailyChangePct :=
      if i ≠ 0 ∧ closes.getD (i - 1) 0 ≠ 0 then
        some ((closes.getD i 0 - closes.getD (i - 1) 0) / closes.getD (i - 1) 0 * 100)
      else none,
    volatility7d := volatilityAt sqr closes i 7,
    volatility30d := volatilityAt sqr closes i 30,
    sma20 := smaAt closes i 20,
    sma50 := smaAt closes i 50,
    sma200 := smaAt closes i 200 }

/-- `CsvImportService.calculateDerivedMetrics`: recomputes every derived
field of every record of the ordered series from the close prices. -/
def calculateDerivedMetrics (sqr : ℚ → ℚ) (ps : List PricePoint) : List PricePoint :=
  (List.range ps.length).map
    (fun i => applyDerived sqr (ps.map (·.closePrice)) i (ps.getD i default))

theorem applyDerived_closePrice (sqr : ℚ → ℚ) (closes : List ℚ) (i : Nat) (p : PricePoint) :
    (applyDerived sqr closes i p).closePrice = p.closePrice := rfl

theorem applyDerived_applyDerived (sqr : ℚ → ℚ) (closes : List ℚ) (i : Nat) (p : PricePoint) :
    applyDerived sqr closes i (applyDerived sqr closes i p) = applyDerived sqr closes i p := rfl

theorem length_calculateDerivedMetrics (sqr : ℚ → ℚ) (ps : List PricePoint) :
    (calculateDerivedMetrics sqr ps).length = ps.length := by
  simp [calculateDerivedMetrics]

theorem closes_calculateDerivedMetrics (sqr : ℚ → ℚ) (ps : List PricePoint) :
    (calculateDerivedMetrics sqr ps).map (·.closePrice) = ps.map (·.closePrice) := by
  unfold calculateDerivedMetrics
  rw [List.map_map]
  have : ((fun p : PricePoint => p.closePrice) ∘
      fun i => applyDerived sqr (ps.map (·.closePrice)) i (ps.getD i default)) =
      fun i => (ps.getD i default).closePrice := by
    funext i; simp [applyDerived_closePrice]
  rw [this, map_range_getD]

end Metrics

/-- The price series used to refute claim C4: the first close price is `0`. -/
def zeroPrevSeries : List PricePoint := [{ closePrice := 0 }, { closePrice := 5 }]

/-- C5: recomputing metrics is idempotent.  Running
`calculateDerivedMetrics` a second time on the series produced by the
first run yields identical derived values for every point (indeed the
whole records are equal), for every square-root model, because each
derived value is a function of the close prices only and the close
prices are preserved. -/
theorem calculateDerivedMetrics_idempotent (sqr : ℚ → ℚ) (ps : List PricePoint) :
    Metrics.calculateDerivedMetrics sqr (Metrics.calculateDerivedMetrics sqr ps) =
      Metrics.calculateDerivedMetrics sqr ps := by
  have hlen := Metrics.length_calculateDerivedMetrics sqr ps
  have hcl := Metrics.closes_calculateDerivedMetrics sqr ps
  calc Metrics.calculateDerivedMetrics sqr (Metrics.calculateDerivedMetrics sqr ps)
      = (List.range (Metrics.calculateDerivedMetrics sqr ps).length).map
          (fun i => Metrics.applyDerived sqr
            ((Metrics.calculateDerivedMetrics sqr ps).map (·.closePrice)) i
            ((Metrics.calculateDerivedMetrics sqr ps).getD i default)) := rfl
    _ = (List.range ps.length).map
          (fun i => Metrics.applyDerived sqr (ps.map (·.closePrice)) i
            ((Metrics.calculateDerivedMetrics sqr ps).getD i default)) := by
          rw [hlen, hcl]
    _ = Metrics.calculateDerivedMetrics sqr ps := by
          conv_rhs => rw [show Metrics.calculateDerivedMetrics sqr ps =
            (List.range ps.length).map (fun i => Metrics.applyDerived sqr
              (ps.map (·.closePrice)) i (ps.getD i default)) from rfl]
          refine List.map_congr_left fun i hi => ?_
          rw [show Metrics.calculateDerivedMetrics sqr ps =
            (List.range ps.length).map (fun i => Metrics.applyDerived sqr
              (ps.map (·.closePrice)) i (ps.getD i default)) from rfl,
            getD_map_range _ _ (List.mem_range.mp hi),
            Metrics.applyDerived_applyDerived]

/-- C4 (amended): in the recomputed series, `dailyChangePct[i]` is null
exactly when `i = 0` or the previous close price is `0`, but
`dailyChange[i]` is null exactly when `i = 0` — a zero previous close
yields a non-null `dailyChange` (the source guards only the percentage
with `prev.closePrice !== 0`). -/
theorem derived_null_conditions (sqr : ℚ → ℚ) (ps : List PricePoint) (i : Nat)
    (h : i < ps.length) :
    (((Metrics.calculateDerivedMetrics sqr ps).getD i default).dailyChange = none ↔ i = 0) ∧
    (((Metrics.calculateDerivedMetrics sqr ps).getD i default).dailyChangePct = none ↔
      i = 0 ∨ (ps.getD (i - 1) default).closePrice = 0) := by
  rw [show Metrics.calculateDerivedMetrics sqr ps =
    (List.range ps.length).map (fun i => Metrics.applyDerived sqr
      (ps.map (·.closePrice)) i (ps.getD i default)) from rfl,
    getD_map_range _ _ h]
  have hmap : ∀ o : Option PricePoint,
      (o.map (·.closePrice)).getD 0 = (o.getD default).closePrice := by
    intro o; cases o <;> rfl
  constructor
  · by_cases hi : i = 0 <;> simp [Metrics.applyDerived, hi]
  · by_cases hi : i = 0
    · simp [Metrics.applyDerived, hi]
    · by_cases hz : (ps.getD (i - 1) default).closePrice = 0 <;>
        simp [Metrics.applyDerived, hi, hmap, hz]

/-- C4 counterexample: on the series `[0, 5]` the point at index 1 has a
zero previous close, yet `dailyChange` is the non-null value `5` (only
`dailyChangePct` is null), refuting the claim that both are null exactly
when `i = 0` or the previous close is `0`. -/
theorem dailyChange_nonnull_after_zero_close :
    (zeroPrevSeries.getD 0 default).closePrice = 0 ∧
    ((Metrics.calculateDerivedMetrics (fun _ => 0) zeroPrevSeries).getD 1
      default).dailyChange = some 5 ∧
    ((Metrics.calculateDerivedMetrics (fun _ => 0) zeroPrevSeries).getD 1
      default).dailyChangePct = none := by
  refine ⟨rfl, ?_, ?_⟩ <;>
    norm_num [Metrics.calculateDerivedMetrics, Metrics.applyDerived, zeroPrevSeries,
      Metrics.volatilityAt, Metrics.smaAt, List.range_succ]

/-- Witness for C4 (amended), at index 1 of the series `[0, 5]`. -/
theorem derived_null_conditions_witness :
    ((Metrics.calculateDerivedMetrics (fun _ => 0) zeroPrevSeries).getD 1
      default).dailyChangePct = none ∧
    ¬ ((Metrics.calculateDerivedMetrics (fun _ => 0) zeroPrevSeries).getD 1
      default).dailyChange = none := by
  have h := derived_null_conditions (fun _ => 0) zeroPrevSeries 1
    (by norm_num [zeroPrevSeries])
  refine ⟨h.2.mpr (Or.inr (by norm_num [zeroPrevSeries])), fun hc => ?_⟩
  exact one_ne_zero (h.1.mp hc)

/-! ## Swing Finder (`BrainService.findSwings`, brain.ts) -/

namespace Brain

/-- Direction of a swing. -/
inductive SwingDir | up | down
deriving DecidableEq

@[simp] theorem SwingDir.down_ne_up : SwingDir.down ≠ SwingDir.up := by decide

@[simp] theorem SwingDir.up_ne_down : SwingDir.up ≠ SwingDir.down := by decide

/-- The optional `direction` filter of `findSwings`. -/
inductive DirFilter | up | down | both
deriving DecidableEq

/-- `!direction || direction === 'both' || direction === swingDirection`. -/
def dirMatches (f : Option DirFilter) (d : SwingDir) : Bool :=
  match f, d with
  | none, _ => true
  | some .both, _ => true
  | some .up, .up => true
  | some .down, .down => true
  | _, _ => false

/-- A contiguous price move found by `findSwings`. -/
structure SwingResult where
  startDate : Int
  endDate : Int
  startPrice : ℚ
  endPrice : ℚ
  changePercent : ℚ
  changeAbsolute : ℚ
  durationDays : Int
  direction : SwingDir
deriving DecidableEq

/-- The single-day scan: for each adjacent pair, emit a 1-day swing when
`|changePct| ≥ absThreshold` (and the direction filter matches). -/
def singleDaySwings (absThr : ℚ) (f : Option DirFilter) : List PricePoint → List SwingResult
  | [] => []
  | [_] => []
  | prev :: curr :: rest =>
    let changePct := (curr.closePrice - prev.closePrice) / prev.closePrice * 100
    let d := if changePct > 0 then SwingDir.up else SwingDir.down
    (if |changePct| ≥ absThr ∧ dirMatches f d then
      [{ startDate := prev.date, endDate := curr.date,
         startPrice := prev.closePrice, endPrice := curr.closePrice,
         changePercent := changePct,
         changeAbsolute := curr.closePrice - prev.closePrice,
         durationDays := 1, direction := d }]
    else []) ++ singleDaySwings absThr f (curr :: rest)

/-- Closing a directional run from `startPt` to `endPt`: emitted only when
the net change clears the threshold, the filter matches, and the
calendar-day duration exceeds 1. -/
def emitRun (absThr : ℚ) (f : Option DirFilter) (startPt endPt : PricePoint) :
    List SwingResult :=
  let changePct := (endPt.closePrice - startPt.closePrice) / startPt.closePrice * 100
  if |changePct| ≥ absThr then
    let d := if changePct > 0 then SwingDir.up else SwingDir.down
    if dirMatches f d then
      let durationDays := endPt.date - startPt.date
      if durationDays > 1 then
        [{ startDate := startPt.date, endDate := endPt.date,
           startPrice := startPt.closePrice, endPrice := endPt.closePrice,
           changePercent := changePct,
           changeAbsolute := endPt.closePrice - startPt.closePrice,
           durationDays := durationDays, direction := d }]
      else []
    else []
  else []

/-- The multi-day trend scan of `findSwings`, as a walk over the series.
`ts` is the record at `trendStart`, `prev` the record at `i-1`, `cd` the
running `currentDirection`.  A day's direction is
`curr.closePrice > prev.closePrice ? 'up' : 'down'` — note a flat day is
classified as `'down'`.  When the direction flips the run is closed at
the previous record, and the scan restarts the trend there. -/
def multiDayScan (absThr : ℚ) (f : Option DirFilter) :
    PricePoint → PricePoint → Option SwingDir → List PricePoint → List SwingResult
  | _, _, _, [] => []
  | ts, prev, cd, curr :: rest =>
    let d := if curr.closePrice > prev.closePrice then SwingDir.up else SwingDir.down
    match cd with
    | none => multiDayScan absThr f ts curr (some d) rest
    | some c =>
      if d ≠ c then
        emitRun absThr f ts prev ++ multiDayScan absThr f prev curr (some d) rest
      else
        multiDayScan absThr f ts curr (some c) rest

/-- The multi-day part of `findSwings` (loop from index 1 with
`trendStart = 0`, `currentDirection = null`). -/
def findMultiDaySwings (absThr : ℚ) (f : Option DirFilter) :
    List PricePoint → List SwingResult
  | [] => []
  | p0 :: rest => multiDayScan absThr f p0 p0 none rest

/-- `BrainService.findSwings` on an already date-filtered, ascending
series: both scans appended, sorted descending by `|changePercent|`. -/
def findSwings (minSwingPercent : ℚ) (f : Option DirFilter)
    (prices : List PricePoint) : List SwingResult :=
  let absThr := |minSwingPercent|
  sortBy (fun a b => decide (|b.changePercent| ≤ |a.changePercent|))
    (singleDaySwings absThr f prices ++ findMultiDaySwings absThr f prices)

/-- The multi-day scan as the spec words it (spec-variant definition, for
comparison with `multiDayScan`): a flat day (`curr == prev`) is treated
as continuing the current direction rather than starting/closing a run. -/
def multiDayScanFlatCont (absThr : ℚ) (f : Option DirFilter) :
    PricePoint → PricePoint → Option SwingDir → List PricePoint → List SwingResult
  | _, _, _, [] => []
  | ts, prev, cd, curr :: rest =>
    match cd with
    | none =>
      if curr.closePrice = prev.closePrice then
        multiDayScanFlatCont absThr f ts curr none rest
      else
        multiDayScanFlatCont absThr f ts curr
          (some (if curr.closePrice > prev.closePrice then SwingDir.up else SwingDir.down))
          rest
    | some c =>
      let d := if curr.closePrice > prev.closePrice then SwingDir.up
        else if curr.closePrice < prev.closePrice then SwingDir.down else c
      if d ≠ c then
        emitRun absThr f ts prev ++ multiDayScanFlatCont absThr f prev curr (some d) rest
      else
        multiDayScanFlatCont absThr f ts curr (some c) rest

/-- Spec-variant of `findMultiDaySwings` built on the flat-continuation
scan. -/
def findMultiDaySwingsFlatCont (absThr : ℚ) (f : Option DirFilter) :
    List PricePoint → List SwingResult
  | [] => []
  | p0 :: rest => multiDayScanFlatCont absThr f p0 p0 none rest

/-- The series refuting claim C3: an up-run with a flat day in its middle
(closes 100, 110, 110, 121 on days 0–3), then a down day. -/
def flatDaySeries : List PricePoint :=
  [{ date := 0, closePrice := 100 }, { date := 1, closePrice := 110 },
   { date := 2, closePrice := 110 }, { date := 3, closePrice := 121 },
   { date := 4, closePrice := 100 }]

/-- C3 counterexample: on `flatDaySeries` (flat day at index 2 inside an
up-run), the code's multi-day scan emits no swing at all — the flat day
is classified `'down'`, closing the up-run at index 1 — whereas the
flat-continuation scan the claim describes emits the full run from day 0
to day 3 (net +21%, 3 days). -/
theorem flat_day_breaks_up_run_counterexample :
    findMultiDaySwings 5 none flatDaySeries = [] ∧
    findMultiDaySwingsFlatCont 5 none flatDaySeries =
      [{ startDate := 0, endDate := 3, startPrice := 100, endPrice := 121,
         changePercent := 21, changeAbsolute := 21, durationDays := 3,
         direction := SwingDir.up }] := by
  constructor <;>
    norm_num [findMultiDaySwings, findMultiDaySwingsFlatCont, multiDayScan,
      multiDayScanFlatCont, emitRun, flatDaySeries, dirMatches]

/-- C3 (amended): in the multi-day trend scan, a flat day
(`curr.closePrice == prev.closePrice`) is classified as a down day.  It
therefore continues a running down-trend without creating a run boundary
(the trend start is kept), but closes a running up-trend at the previous
index, creating a run boundary at the flat day. -/
theorem multiDayScan_flat_day (absThr : ℚ) (f : Option DirFilter)
    (ts prev curr : PricePoint) (rest : List PricePoint)
    (h : curr.closePrice = prev.closePrice) :
    multiDayScan absThr f ts prev (some SwingDir.down) (curr :: rest) =
      multiDayScan absThr f ts curr (some SwingDir.down) rest ∧
    multiDayScan absThr f ts prev (some SwingDir.up) (curr :: rest) =
      emitRun absThr f ts prev ++ multiDayScan absThr f prev curr (some SwingDir.down) rest := by
  refine ⟨by simp [multiDayScan, h], ?_⟩
  simp only [multiDayScan, h]
  simp [show ¬(SwingDir.down = SwingDir.up) from by decide]

/-- Witness for C3 (amended) on concrete records with equal closes. -/
theorem multiDayScan_flat_day_witness :
    multiDayScan 5 none { date := 0, closePrice := 100 }
        { date := 1, closePrice := 110 } (some SwingDir.down)
        [{ date := 2, closePrice := 110 }] =
      multiDayScan 5 none { date := 0, closePrice := 100 }
        { date := 2, closePrice := 110 } (some SwingDir.down) [] ∧
    multiDayScan 5 none { date := 0, closePrice := 100 }
        { date := 1, closePrice := 110 } (some SwingDir.up)
        [{ date := 2, closePrice := 110 }] =
      emitRun 5 none { date := 0, closePrice := 100 }
          { date := 1, closePrice := 110 } ++
        multiDayScan 5 none { date := 1, closePrice := 110 }
          { date := 2, closePrice := 110 } (some SwingDir.down) [] :=
  multiDayScan_flat_day 5 none { date := 0, closePrice := 100 }
    { date := 1, closePrice := 110 } { date := 2, closePrice := 110 } [] rfl

end Brain

/-! ## News Impact Quantifier (`QuantifierService`, quantifier.ts) -/

/-- `String.prototype.includes`: substring containment on character
lists. -/
def containsSub : List Char → List Char → Bool
  | hay, needle =>
    match hay with
    | [] => needle.isEmpty
    | _ :: t => needle.isPrefixOf hay || containsSub t needle

/-- `String.prototype.toLowerCase`. -/
def lowerStr (s : String) : String := ⟨s.data.map Char.toLower⟩

namespace Quantifier

/-- A news article as read by the quantifier. -/
structure Article where
  id : Nat := 0
  title : String := ""
  text : String := ""
  category : Option String := none
  sentiment : Option ℚ := none
  publishedAt : Int := 0
deriving DecidableEq

/-- Sentiment classification of an article. -/
inductive Sentiment | bullish | bearish | neutral
deriving DecidableEq

/-- Result of `analyzeArticleImpact`. -/
structure SentimentAnalysis where
  sentiment : Sentiment
  confidence : ℚ
  keywords : List String
deriving DecidableEq

/-- `SENTIMENT_KEYWORDS.bullish`. -/
def bullishKeywords : List String :=
  ["gold rises", "gold gains", "gold rally", "gold surges", "safe haven demand",
   "inflation fears", "rate cut", "dovish", "uncertainty", "crisis", "war",
   "dollar weakens", "stimulus", "debt concerns", "recession fears",
   "central bank buying", "gold demand", "etf inflows"]

/-- `SENTIMENT_KEYWORDS.bearish`. -/
def bearishKeywords : List String :=
  ["gold falls", "gold drops", "gold declines", "gold tumbles", "risk-on",
   "rate hike", "hawkish", "strong economy", "dollar strength", "dollar rally",
   "inflation eases", "recovery", "stock rally", "bond yields rise",
   "etf outflows", "profit taking"]

/-- `article.category || 'general'` (the empty string is falsy). -/
def categoryOf (c : Option String) : String :=
  match c with
  | none => "general"
  | some s => if s = "" then "general" else s

/-- One entry of `CATEGORY_WEIGHTS`. -/
structure CategoryWeights where
  baseImpact : ℚ
  volatilityMultiplier : ℚ
deriving DecidableEq

/-- `CATEGORY_WEIGHTS[category] || CATEGORY_WEIGHTS.general`. -/
def categoryWeights : String → CategoryWeights
  | "inflation" => ⟨7/10, 12/10⟩
  | "interest_rates" => ⟨8/10, 13/10⟩
  | "currency" => ⟨6/10, 11/10⟩
  | "geopolitics" => ⟨9/10, 15/10⟩
  | "economy" => ⟨5/10, 1⟩
  | "demand" => ⟨6/10, 1⟩
  | "supply" => ⟨5/10, 9/10⟩
  | _ => ⟨3/10, 8/10⟩

/-- `QuantifierService.analyzeArticleImpact`: keyword sentiment pass over
the lower-cased concatenation of title and text. -/
def analyzeArticleImpact (a : Article) : SentimentAnalysis :=
  let fullText := lowerStr (a.title ++ " " ++ a.text)
  let bullishMatched := bullishKeywords.filter
    (fun kw => containsSub fullText.data (lowerStr kw).data)
  let bearishMatched := bearishKeywords.filter
    (fun kw => containsSub fullText.data (lowerStr kw).data)
  let bullishCount := bullishMatched.length
  let bearishCount := bearishMatched.length
  let matchedKeywords := bullishMatched ++ bearishMatched
  let totalMatches := bullishCount + bearishCount
  if totalMatches = 0 then ⟨.neutral, 3/10, []⟩
  else
    let netSentiment : Int := (bullishCount : Int) - (bearishCount : Int)
    let confidence : ℚ := min (9/10) (3/10 + (totalMatches : ℚ) * (1/10))
    if netSentiment > 0 then ⟨.bullish, confidence, matchedKeywords⟩
    else if netSentiment < 0 then ⟨.bearish, confidence, matchedKeywords⟩
    else ⟨.neutral, confidence * (1/2), matchedKeywords⟩

/-- Display name of a sentiment. -/
def sentimentName : Sentiment → String
  | .bullish => "bullish"
  | .bearish => "bearish"
  | .neutral => "neutral"

/-- `QuantifierService.generateReasoning`.  The numeric interpolations
(`toFixed` renderings of scores, percentages and lag) are elided; the
branch structure and textual skeleton of the source are preserved. -/
def generateReasoning (a : Article) (p : PricePoint) (analysis : SentimentAnalysis)
    (impactScore : ℚ) (lagDays : Int) : String :=
  let direction :=
    if impactScore > 0 then "bullish" else if impactScore < 0 then "bearish" else "neutral"
  let magnitude :=
    if |impactScore| > 50 then "strong" else if |impactScore| > 25 then "moderate" else "weak"
  let r0 := "Article classified as " ++ categoryOf a.category ++ ". "
  let r1 := r0 ++ "Sentiment analysis: " ++ sentimentName analysis.sentiment ++ ". "
  let r2 :=
    if analysis.keywords.length > 0 then
      r1 ++ "Key terms: " ++ String.intercalate ", " (analysis.keywords.take 3) ++ ". "
    else r1
  let r3 := r2 ++ "Impact assessment: " ++ magnitude ++ " " ++ direction ++ ". "
  let r4 := if lagDays > 0 then r3 ++ "Published before price date. " else r3
  match p.dailyChangePct with
  | some pct => r4 ++ (if pct > 0 then "Actual price moved up." else "Actual price moved down.")
  | none => r4

/-- The transient quantification produced by `calculateImpactScore`. -/
structure QuantificationResult where
  newsArticleId : Nat
  goldPriceId : Nat
  impactScore : ℚ
  confidenceScore : ℚ
  lagDays : Int
  impactCategory : String
  reasoning : String
deriving DecidableEq

/-- `QuantifierService.calculateImpactScore` on an article/price pair that
was found (the source throws before any computation when either lookup
misses).  `lagDays = differenceInDays(price.date, article.publishedAt)`,
kept signed. -/
def calculateImpactScore (a : Article) (p : PricePoint) : QuantificationResult :=
  let lagDays : Int := p.date - a.publishedAt
  let analysis := analyzeArticleImpact a
  let category := categoryOf a.category
  let weights := categoryWeights category
  let base : ℚ :=
    match analysis.sentiment with
    | .bullish => weights.baseImpact * 50 * analysis.confidence
    | .bearish => -weights.baseImpact * 50 * analysis.confidence
    | .neutral => 0
  let amplified : ℚ :=
    match p.dailyChangePct with
    | none => base
    | some pct =>
      let priceDirection : Int := if pct > 0 then 1 else -1
      let sentimentDirection : Int :=
        match analysis.sentiment with
        | .bullish => 1
        | .bearish => -1
        | .neutral => 0
      let s1 :=
        if priceDirection = sentimentDirection ∧ sentimentDirection ≠ 0 then
          base * (1 + |pct| / 100)
        else base
      match p.volatility7d with
      | none => s1
      | some vol => s1 * (1 + vol * weights.volatilityMultiplier / 100)
  let lagDecay : ℚ := max (1/5) (1 - (lagDays : ℚ) * (3/20))
  let clamped : ℚ := max (-100) (min 100 (amplified * lagDecay))
  { newsArticleId := a.id, goldPriceId := p.id,
    impactScore := clamped,
    confidenceScore := analysis.confidence * lagDecay,
    lagDays := lagDays,
    impactCategory := category,
    reasoning := generateReasoning a p analysis clamped lagDays }

/-- A persisted `NewsQuantification` row. -/
structure Quantification where
  id : Nat
  newsArticleId : Nat
  goldPriceId : Nat
  impactScore : ℚ
  confidenceScore : ℚ
  lagDays : Int
  impactCategory : String
  reasoning : String
  humanVerified : Bool := false
  humanScore : Option ℚ := none
  humanFeedback : Option String := none
  verifiedBy : Option String := none
  verifiedAt : Option Int := none
deriving DecidableEq

/-- The `update` branch of the upsert in `quantifyNewsForPeriod`: exactly
the five algorithmic fields are rewritten. -/
def applyAlgorithmicUpdate (q : Quantification) (r : QuantificationResult) : Quantification :=
  { q with
    impactScore := r.impactScore
    confidenceScore := r.confidenceScore
    lagDays := r.lagDays
    impactCategory := r.impactCategory
    reasoning := r.reasoning }

/-- The `create` branch of the upsert; `freshId` models the row id the
data layer generates, and the human-feedback fields start at their
defaults. -/
def createQuantification (freshId : Nat) (r : QuantificationResult) : Quantification :=
  { id := freshId, newsArticleId := r.newsArticleId, goldPriceId := r.goldPriceId,
    impactScore := r.impactScore, confidenceScore := r.confidenceScore,
    lagDays := r.lagDays, impactCategory := r.impactCategory, reasoning := r.reasoning }

/-- `prisma.newsQuantification.upsert` keyed on
`(newsArticleId, goldPriceId)`. -/
def upsertQuantification (store : List Quantification) (freshId : Nat)
    (r : QuantificationResult) : List Quantification :=
  if store.any (fun q =>
      q.newsArticleId == r.newsArticleId && q.goldPriceId == r.goldPriceId) then
    store.map (fun q =>
      if q.newsArticleId == r.newsArticleId && q.goldPriceId == r.goldPriceId then
        applyAlgorithmicUpdate q r
      else q)
  else
    store ++ [createQuantification freshId r]

/-- `QuantifierService.submitFeedback`: marks the row verified and records
the human score (`now` models `new Date()`). -/
def submitFeedback (store : List Quantification) (quantificationId : Nat)
    (humanScore : ℚ) (humanFeedback : Option String) (verifiedBy : Option String)
    (now : Int) : List Quantification :=
  store.map (fun q =>
    if q.id == quantificationId then
      { q with
        humanVerified := true
        humanScore := some humanScore
        humanFeedback := humanFeedback
        verifiedAt := some now
        verifiedBy := verifiedBy }
    else q)

/-- `QuantifierService.quantifyNewsForPeriod` over in-memory collections:
for each price in the period, each article published within
`[price.date - maxLagDays, price.date]` is quantified against it and
upserted.  Returns the store, the next fresh id, and the `quantified`
count; the `errors` count of the source is always zero here because the
in-memory lookups cannot miss. -/
def quantifyNewsForPeriod (prices : List PricePoint) (articles : List Article)
    (startDate endDate : Int) (maxLagDays : Int) (store : List Quantification)
    (nextId : Nat) : List Quantification × Nat × Nat :=
  let inRange := prices.filter (fun p => decide (startDate ≤ p.date ∧ p.date ≤ endDate))
  inRange.foldl (fun acc price =>
    let relevant := articles.filter (fun a =>
      decide (price.date - maxLagDays ≤ a.publishedAt ∧ a.publishedAt ≤ price.date))
    relevant.foldl (fun acc2 article =>
      (upsertQuantification acc2.1 acc2.2.1 (calculateImpactScore article price),
       acc2.2.1 + 1, acc2.2.2 + 1)) acc)
    (store, nextId, 0)

theorem confidence_min_bounds (t : ℚ) (ht : 0 ≤ t) :
    0 ≤ min (9/10 : ℚ) (3/10 + t * (1/10)) ∧
      min (9/10 : ℚ) (3/10 + t * (1/10)) ≤ 9/10 :=
  ⟨le_min (by norm_num) (by linarith), min_le_left _ _⟩

theorem analyzeArticleImpact_confidence_bounds (a : Article) :
    0 ≤ (analyzeArticleImpact a).confidence ∧
      (analyzeArticleImpact a).confidence ≤ 9 / 10 := by
  simp only [analyzeArticleImpact]
  split
  · norm_num
  · split
    · exact confidence_min_bounds _ (by positivity)
    · split
      · exact confidence_min_bounds _ (by positivity)
      · have h := confidence_min_bounds
          ((((bullishKeywords.filter (fun kw => containsSub
              (lowerStr (a.title ++ " " ++ a.text)).data (lowerStr kw).data)).length : ℚ) +
            ((bearishKeywords.filter (fun kw => containsSub
              (lowerStr (a.title ++ " " ++ a.text)).data (lowerStr kw).data)).length : ℚ)))
          (by positivity)
        constructor <;> push_cast at h ⊢ <;> nlinarith [h.1, h.2]

/-- C1 (amended): for every article/price pair accepted by
`calculateImpactScore`, the returned `impactScore` lies in `[-100, 100]`
for every value of `lagDays`; the returned `confidenceScore` lies in
`[0, 1]` whenever the article is not published after the price date
(`lagDays ≥ 0`).  (For negative `lagDays` the lag decay exceeds 1 and
the unclamped `confidenceScore` can leave `[0, 1]`.) -/
theorem calculateImpactScore_bounds (a : Article) (p : PricePoint) :
    (-100 ≤ (calculateImpactScore a p).impactScore ∧
      (calculateImpactScore a p).impactScore ≤ 100) ∧
    (a.publishedAt ≤ p.date →
      0 ≤ (calculateImpactScore a p).confidenceScore ∧
        (calculateImpactScore a p).confidenceScore ≤ 1) := by
  obtain ⟨hc0, hc9⟩ := analyzeArticleImpact_confidence_bounds a
  simp only [calculateImpactScore]
  refine ⟨⟨le_max_left _ _, max_le (by norm_num) (min_le_left _ _)⟩, fun hlag => ?_⟩
  have hd0 : (0:ℚ) ≤ max (1/5) (1 - ((p.date - a.publishedAt : ℤ) : ℚ) * (3/20)) :=
    le_trans (by norm_num) (le_max_left _ _)
  have hlagq : (0:ℚ) ≤ ((p.date - a.publishedAt : ℤ) : ℚ) := by
    push_cast
    have : (a.publishedAt : ℚ) ≤ (p.date : ℚ) := by exact_mod_cast hlag
    linarith
  have hd1 : max (1/5) (1 - ((p.date - a.publishedAt : ℤ) : ℚ) * (3/20)) ≤ 1 :=
    max_le (by norm_num) (by nlinarith)
  exact ⟨mul_nonneg hc0 hd0, by nlinarith⟩

/-- The article refuting the `confidenceScore ∈ [0,1]` part of claim C1:
six bullish keyword matches, published one day after the price date. -/
def negLagArticle : Article :=
  { id := 1, title := "rate cut dovish uncertainty crisis war stimulus", publishedAt := 1 }

/-- The price observation one day before `negLagArticle` was published. -/
def negLagPrice : PricePoint := { id := 2, date := 0 }

/-- C1 counterexample: with `lagDays = -1` the lag decay is
`max(0.2, 1.15) = 1.15`, so `confidenceScore = 0.9 * 1.15 = 1.035 > 1`,
refuting `confidenceScore ∈ [0, 1]` for negative `lagDays`.  The
`impactScore` is still clamped. -/
theorem confidenceScore_above_one_counterexample :
    (calculateImpactScore negLagArticle negLagPrice).lagDays = -1 ∧
    (calculateImpactScore negLagArticle negLagPrice).confidenceScore = 207 / 200 ∧
    1 < (calculateImpactScore negLagArticle negLagPrice).confidenceScore := by
  have hsent : (analyzeArticleImpact negLagArticle).sentiment = Sentiment.bullish := by decide
  have hconf : (analyzeArticleImpact negLagArticle).confidence =
      min (9/10 : ℚ) (3/10 + ((6 : ℕ) : ℚ) * (1/10)) := rfl
  have hconf' : (analyzeArticleImpact negLagArticle).confidence = 9/10 := by
    rw [hconf]; norm_num
  refine ⟨rfl, ?_, ?_⟩ <;>
    simp only [calculateImpactScore, negLagPrice] <;>
    rw [hconf'] <;> norm_num [negLagArticle]

/-- Witness for C1 (amended): the same six-keyword article against a
price dated on its publication day (`lagDays = 0`). -/
theorem calculateImpactScore_bounds_witness :
    0 ≤ (calculateImpactScore negLagArticle { id := 2, date := 1 }).confidenceScore ∧
      (calculateImpactScore negLagArticle { id := 2, date := 1 }).confidenceScore ≤ 1 :=
  (calculateImpactScore_bounds negLagArticle { id := 2, date := 1 }).2
    (by norm_num [negLagArticle])

/-- The identity and human-feedback fields of a quantification — the part
of the row the algorithmic upsert must not touch. -/
structure VerificationView where
  id : Nat
  newsArticleId : Nat
  goldPriceId : Nat
  humanVerified : Bool
  humanScore : Option ℚ
  humanFeedback : Option String
  verifiedBy : Option String
  verifiedAt : Option Int
deriving DecidableEq

/-- Projection of a quantification row onto its protected fields. -/
def verificationView (q : Quantification) : VerificationView :=
  ⟨q.id, q.newsArticleId, q.goldPriceId, q.humanVerified, q.humanScore,
   q.humanFeedback, q.verifiedBy, q.verifiedAt⟩

theorem verificationView_applyAlgorithmicUpdate (q : Quantification)
    (r : QuantificationResult) :
    verificationView (applyAlgorithmicUpdate q r) = verificationView q := rfl

/-- `s'` keeps every protected field of every row of `s` (in order) and
adds only freshly created, unverified rows. -/
def ViewExtends (s s' : List Quantification) : Prop :=
  ∃ tail, s'.map verificationView = s.map verificationView ++ tail ∧
    ∀ v ∈ tail, v.humanVerified = false ∧ v.humanScore = none

theorem viewExtends_refl (s : List Quantification) : ViewExtends s s :=
  ⟨[], by simp, by simp⟩

theorem viewExtends_trans {s s' s'' : List Quantification}
    (h1 : ViewExtends s s') (h2 : ViewExtends s' s'') : ViewExtends s s'' := by
  obtain ⟨t1, he1, hp1⟩ := h1
  obtain ⟨t2, he2, hp2⟩ := h2
  refine ⟨t1 ++ t2, by rw [he2, he1, List.append_assoc], fun v hv => ?_⟩
  rcases List.mem_append.mp hv with h | h
  · exact hp1 v h
  · exact hp2 v h

theorem viewExtends_upsert (s : List Quantification) (freshId : Nat)
    (r : QuantificationResult) : ViewExtends s (upsertQuantification s freshId r) := by
  unfold upsertQuantification
  split
  · refine ⟨[], ?_, by simp⟩
    rw [List.append_nil, List.map_map]
    refine List.map_congr_left fun q _ => ?_
    by_cases hc : q.newsArticleId == r.newsArticleId && q.goldPriceId == r.goldPriceId <;>
      simp [hc, Function.comp, verificationView_applyAlgorithmicUpdate]
  · exact ⟨[verificationView (createQuantification freshId r)], by simp, by
      intro v hv
      simp only [List.mem_singleton] at hv
      subst hv
      exact ⟨rfl, rfl⟩⟩

theorem viewExtends_foldl {α : Type}
    (g : List Quantification × Nat × Nat → α → List Quantification × Nat × Nat)
    (hg : ∀ s n m a, ViewExtends s (g (s, n, m) a).1)
    (l : List α) (s : List Quantification) (n m : Nat) :
    ViewExtends s (l.foldl g (s, n, m)).1 := by
  induction l generalizing s n m with
  | nil => exact viewExtends_refl s
  | cons a t ih =>
    simp only [List.foldl_cons]
    exact viewExtends_trans (hg s n m a)
      (ih (g (s, n, m) a).1 (g (s, n, m) a).2.1 (g (s, n, m) a).2.2)

theorem viewExtends_quantifyNewsForPeriod (prices : List PricePoint)
    (articles : List Article) (startDate endDate maxLagDays : Int)
    (store : List Quantification) (nextId : Nat) :
    ViewExtends store
      (quantifyNewsForPeriod prices articles startDate endDate maxLagDays store nextId).1 := by
  unfold quantifyNewsForPeriod
  exact viewExtends_foldl _
    (fun s n m price => viewExtends_foldl _
      (fun s' n' m' article => viewExtends_upsert s' n' (calculateImpactScore article price))
      _ s n m)
    _ store nextId 0

theorem submitFeedback_verifies (store : List Quantification) (qid : Nat) (hs : ℚ)
    (fb vb : Option String) (now : Int) (q : Quantification)
    (hq : q ∈ submitFeedback store qid hs fb vb now) (hid : q.id = qid) :
    q.humanVerified = true ∧ q.humanScore = some hs := by
  unfold submitFeedback at hq
  obtain ⟨q0, _, hq0⟩ := List.mem_map.mp hq
  by_cases hc : q0.id == qid
  · rw [if_pos hc] at hq0
    subst hq0
    exact ⟨rfl, rfl⟩
  · rw [if_neg hc] at hq0
    subst hq0
    exact absurd (beq_iff_eq.mpr hid) hc

/-- C2: a quantification verified via `submitFeedback` survives a later
algorithmic recomputation of the whole period (`quantifyNewsForPeriod`):
the resulting store still holds a row for the same
`(newsArticleId, goldPriceId)` pair with `humanVerified = true` and with
`humanScore`, `humanFeedback`, `verifiedBy` and `verifiedAt` unchanged —
the upsert's `update` branch rewrites only the algorithmic fields. -/
theorem quantifyNewsForPeriod_preserves_verification
    (prices : List PricePoint) (articles : List Article)
    (store0 : List Quantification) (qid : Nat) (hs : ℚ)
    (fb vb : Option String) (now : Int)
    (startDate endDate maxLagDays : Int) (nextId : Nat) (q : Quantification)
    (hq : q ∈ submitFeedback store0 qid hs fb vb now) (hid : q.id = qid) :
    q.humanVerified = true ∧ q.humanScore = some hs ∧
    ∃ q' ∈ (quantifyNewsForPeriod prices articles startDate endDate maxLagDays
        (submitFeedback store0 qid hs fb vb now) nextId).1,
      q'.newsArticleId = q.newsArticleId ∧ q'.goldPriceId = q.goldPriceId ∧
      q'.humanVerified = true ∧ q'.humanScore = q.humanScore ∧
      q'.humanFeedback = q.humanFeedback ∧ q'.verifiedBy = q.verifiedBy ∧
      q'.verifiedAt = q.verifiedAt := by
  obtain ⟨hver, hscore⟩ := submitFeedback_verifies store0 qid hs fb vb now q hq hid
  refine ⟨hver, hscore, ?_⟩
  obtain ⟨tail, he, -⟩ := viewExtends_quantifyNewsForPeriod prices articles
    startDate endDate maxLagDays (submitFeedback store0 qid hs fb vb now) nextId
  have hmem : verificationView q ∈
      ((quantifyNewsForPeriod prices articles startDate endDate maxLagDays
        (submitFeedback store0 qid hs fb vb now) nextId).1).map verificationView := by
    rw [he]
    exact List.mem_append.mpr (Or.inl (List.mem_map_of_mem _ hq))
  obtain ⟨q', hq', hv⟩ := List.mem_map.mp hmem
  have h1 : q'.newsArticleId = q.newsArticleId := congrArg VerificationView.newsArticleId hv
  have h2 : q'.goldPriceId = q.goldPriceId := congrArg VerificationView.goldPriceId hv
  have h3 : q'.humanVerified = q.humanVerified := congrArg VerificationView.humanVerified hv
  have h4 : q'.humanScore = q.humanScore := congrArg VerificationView.humanScore hv
  have h5 : q'.humanFeedback = q.humanFeedback := congrArg VerificationView.humanFeedback hv
  have h6 : q'.verifiedBy = q.verifiedBy := congrArg VerificationView.verifiedBy hv
  have h7 : q'.verifiedAt = q.verifiedAt := congrArg VerificationView.verifiedAt hv
  exact ⟨q', hq', h1, h2, h3.trans hver, h4, h5, h6, h7⟩

/-- The store used by the C2 witness: one unverified row for the pair
`(1, 2)`. -/
def exVerifiedStore : List Quantification :=
  [{ id := 7
     newsArticleId := 1
     goldPriceId := 2
     impactScore := 0
     confidenceScore := 0
     lagDays := 0
     impactCategory := "general"
     reasoning := "" }]

/-- Witness for C2: feedback on row 7, then a recomputation of the period
that re-quantifies the same pair. -/
theorem quantifyNewsForPeriod_preserves_verification_witness :
    ∃ q' ∈ (quantifyNewsForPeriod [{ id := 2, date := 0 }] [{ id := 1 }] 0 0 3
        (submitFeedback exVerifiedStore 7 10 none none 5) 100).1,
      q'.newsArticleId = 1 ∧ q'.goldPriceId = 2 ∧
      q'.humanVerified = true ∧ q'.humanScore = some 10 ∧
      q'.humanFeedback = none ∧ q'.verifiedBy = none ∧ q'.verifiedAt = some 5 := by
  have hq : ({ id := 7
               newsArticleId := 1
               goldPriceId := 2
               impactScore := 0
               confidenceScore := 0
               lagDays := 0
               impactCategory := "general"
               reasoning := ""
               humanVerified := true
               humanScore := some 10
               humanFeedback := none
               verifiedBy := none
               verifiedAt := some 5 } : Quantification) ∈
      submitFeedback exVerifiedStore 7 10 none none 5 := by
    simp [submitFeedback, exVerifiedStore]
  have h := quantifyNewsForPeriod_preserves_verification
    [{ id := 2, date := 0 }] [{ id := 1 }] exVerifiedStore 7 10 none none 5
    0 0 3 100 _ hq rfl
  obtain ⟨-, -, q', hq', h1, h2, h3, h4, h5, h6, h7⟩ := h
  exact ⟨q', hq', h1, h2, h3, h4, h5, h6, h7⟩

end Quantifier

/-! ## Pattern Detector (`PatternDetectorService`, patternDetector.ts) -/

namespace PatternDetector

/-- A detected pattern instance.  The `details` strings reproduce the
source's text without the numeric interpolation. -/
structure DetectedPattern where
  patternType : String
  startDate : Int
  endDate : Int
  startPriceId : Nat
  confidence : ℚ
  predictedMove : ℚ
  details : String
deriving DecidableEq

/-- Crossover check at one adjacent pair (`detectCrossPatterns` loop
body).  `!prev.sma50 || ...` skips null or zero SMAs (JS truthiness). -/
def crossAt (prev curr : PricePoint) : List DetectedPattern :=
  match prev.sma50, prev.sma200, curr.sma50, curr.sma200 with
  | some p50, some p200, some c50, some c200 =>
    if p50 ≠ 0 ∧ p200 ≠ 0 ∧ c50 ≠ 0 ∧ c200 ≠ 0 then
      (if p50 ≤ p200 ∧ c50 > c200 then
        [{ patternType := "golden_cross", startDate := curr.date, endDate := curr.date,
           startPriceId := curr.id, confidence := 85/100, predictedMove := 5,
           details := "SMA50 crossed above SMA200" }]
      else []) ++
      (if p50 ≥ p200 ∧ c50 < c200 then
        [{ patternType := "death_cross", startDate := curr.date, endDate := curr.date,
           startPriceId := curr.id, confidence := 85/100, predictedMove := -5,
           details := "SMA50 crossed below SMA200" }]
      else [])
    else []
  | _, _, _, _ => []

/-- `PatternDetectorService.detectCrossPatterns`. -/
def detectCrossPatterns : List PricePoint → List DetectedPattern
  | [] => []
  | [_] => []
  | prev :: curr :: rest => crossAt prev curr ++ detectCrossPatterns (curr :: rest)

/-- `detectBreakouts` loop body at index `i`: the trailing 20-day window
is `prices.slice(i - 20, i)`; the point is skipped when
`!curr.dailyChangePct || !curr.volatility7d` (null or zero). -/
def breakoutsAt (prices : List PricePoint) (i : Nat) : List DetectedPattern :=
  let curr := prices.getD i default
  match curr.dailyChangePct, curr.volatility7d with
  | some pct, some vol =>
    if pct ≠ 0 ∧ vol ≠ 0 then
      let window := (prices.drop (i - 20)).take 20
      let windowHigh := listMax (window.map (·.closePrice))
      let windowLow := listMin (window.map (·.closePrice))
      let windowRange := windowHigh - windowLow
      (if curr.closePrice > windowHigh ∧ pct > 3/2 then
        let breakoutStrength := (curr.closePrice - windowHigh) / windowRange * 100
        [{ patternType := "breakout_up", startDate := curr.date, endDate := curr.date,
           startPriceId := curr.id,
           confidence := min (9/10) (1/2 + breakoutStrength / 100),
           predictedMove := min 8 (2 + breakoutStrength / 10),
           details := "Price broke above 20-day high" }]
      else []) ++
      (if curr.closePrice < windowLow ∧ pct < -(3/2) then
        let breakoutStrength := (windowLow - curr.closePrice) / windowRange * 100
        [{ patternType := "breakout_down", startDate := curr.date, endDate := curr.date,
           startPriceId := curr.id,
           confidence := min (9/10) (1/2 + breakoutStrength / 100),
           predictedMove := -(min 8 (2 + breakoutStrength / 10)),
           details := "Price broke below 20-day low" }]
      else [])
    else []
  | _, _ => []

/-- `PatternDetectorService.detectBreakouts`: loop
`for (let i = 20; i < prices.length; i++)`. -/
def detectBreakouts (prices : List PricePoint) : List DetectedPattern :=
  ((List.range prices.length).drop 20).flatMap (breakoutsAt prices)

/-- `detectVolatilitySpikes` inner check for one point, with the
precomputed mean, standard deviation and threshold. -/
def volSpikeFor (stdVolatility threshold : ℚ) (p : PricePoint) : List DetectedPattern :=
  match p.volatility7d with
  | some v =>
    if v > threshold then
      [{ patternType := "high_volatility_spike", startDate := p.date, endDate := p.date,
         startPriceId := p.id,
         confidence := min (9/10) (1/2 + (v - threshold) / stdVolatility * (1/10)),
         predictedMove := 0,
         details := "Volatility above average" }]
    else []
  | none => []

/-- `PatternDetectorService.detectVolatilitySpikes`: flags points whose
`volatility7d` exceeds mean plus two population standard deviations. -/
def detectVolatilitySpikes (sqr : ℚ → ℚ) (prices : List PricePoint) : List DetectedPattern :=
  let volatilities := prices.filterMap (·.volatility7d)
  if volatilities.length = 0 then []
  else
    let avgVolatility := volatilities.sum / volatilities.length
    let stdVolatility :=
      sqr ((volatilities.map (fun v => (v - avgVolatility) ^ 2)).sum / volatilities.length)
    let threshold := avgVolatility + 2 * stdVolatility
    prices.flatMap (volSpikeFor stdVolatility threshold)

/-- A local extremum candidate of `detectDoublePatterns`. -/
structure Extremum where
  index : Nat
  price : PricePoint
deriving DecidableEq

/-- `prices.slice(i-2, i).every(< curr) && prices.slice(i+1, i+3).every(< curr)`. -/
def isLocalMax (prices : List PricePoint) (i : Nat) : Bool :=
  let curr := (prices.getD i default).closePrice
  ((prices.drop (i - 2)).take 2).all (fun p => decide (p.closePrice < curr)) &&
    ((prices.drop (i + 1)).take 2).all (fun p => decide (p.closePrice < curr))

/-- Mirror of `isLocalMax` with strictly greater neighbours. -/
def isLocalMin (prices : List PricePoint) (i : Nat) : Bool :=
  let curr := (prices.getD i default).closePrice
  ((prices.drop (i - 2)).take 2).all (fun p => decide (p.closePrice > curr)) &&
    ((prices.drop (i + 1)).take 2).all (fun p => decide (p.closePrice > curr))

/-- The maxima collected by `for (let i = 2; i < prices.length - 2; i++)`. -/
def localMaxima (prices : List PricePoint) : List Extremum :=
  (((List.range (prices.length - 2)).drop 2).filter (isLocalMax prices)).map
    (fun i => ⟨i, prices.getD i default⟩)

/-- The minima collected by the same loop. -/
def localMinima (prices : List PricePoint) : List Extremum :=
  (((List.range (prices.length - 2)).drop 2).filter (isLocalMin prices)).map
    (fun i => ⟨i, prices.getD i default⟩)

/-- All ordered pairs `(i, j)` with `i < j`, in the nested-loop order of
the source. -/
def orderedPairs : List α → List (α × α)
  | [] => []
  | x :: xs => xs.map (fun y => (x, y)) ++ orderedPairs xs

/-- Double-top check for one pair of maxima. -/
def doubleTopFor (prices : List PricePoint) (pair : Extremum × Extremum) :
    List DetectedPattern :=
  let first := pair.1
  let second := pair.2
  let daysBetween := second.price.date - first.price.date
  if daysBetween < 10 ∨ daysBetween > 60 then []
  else
    let priceDiff := |first.price.closePrice - second.price.closePrice| / first.price.closePrice
    if priceDiff ≤ 1/50 then
      let valleyPrices := (prices.drop first.index).take (second.index + 1 - first.index)
      let valley := listMin (valleyPrices.map (·.closePrice))
      let avgPeak := (first.price.closePrice + second.price.closePrice) / 2
      let depth := (avgPeak - valley) / avgPeak
      if depth ≥ 3/100 then
        [{ patternType := "double_top", startDate := first.price.date,
           endDate := second.price.date, startPriceId := first.price.id,
           confidence := min (85/100) (1/2 + depth * 5),
           predictedMove := -(min 8 (depth * 100)),
           details := "Double top" }]
      else []
    else []

/-- Double-bottom check for one pair of minima. -/
def doubleBottomFor (prices : List PricePoint) (pair : Extremum × Extremum) :
    List DetectedPattern :=
  let first := pair.1
  let second := pair.2
  let daysBetween := second.price.date - first.price.date
  if daysBetween < 10 ∨ daysBetween > 60 then []
  else
    let priceDiff := |first.price.closePrice - second.price.closePrice| / first.price.closePrice
    if priceDiff ≤ 1/50 then
      let peakPrices := (prices.drop first.index).take (second.index + 1 - first.index)
      let peak := listMax (peakPrices.map (·.closePrice))
      let avgTrough := (first.price.closePrice + second.price.closePrice) / 2
      let height := (peak - avgTrough) / avgTrough
      if height ≥ 3/100 then
        [{ patternType := "double_bottom", startDate := first.price.date,
           endDate := second.price.date, startPriceId := first.price.id,
           confidence := min (85/100) (1/2 + height * 5),
           predictedMove := min 8 (height * 100),
           details := "Double bottom" }]
      else []
    else []

/-- `PatternDetectorService.detectDoublePatterns`. -/
def detectDoublePatterns (prices : List PricePoint) : List DetectedPattern :=
  (orderedPairs (localMaxima prices)).flatMap (doubleTopFor prices) ++
    (orderedPairs (localMinima prices)).flatMap (doubleBottomFor prices)

/-- `PatternDetectorService.detectPatterns` on an already date-filtered
ascending series: requires at least 30 points, else returns empty; runs
the four sub-detectors and sorts descending by confidence. -/
def detectPatterns (sqr : ℚ → ℚ) (prices : List PricePoint) : List DetectedPattern :=
  if prices.length < 30 then []
  else
    sortBy (fun a b => decide (b.confidence ≤ a.confidence))
      (detectCrossPatterns prices ++ detectBreakouts prices ++
        detectVolatilitySpikes sqr prices ++ detectDoublePatterns prices)

/-- C9: for fewer than 30 points, `detectPatterns` returns the empty
sequence (insufficient data is a valid "no signal yet" state, not an
error), for every square-root model. -/
theorem detectPatterns_insufficient_data (sqr : ℚ → ℚ) (prices : List PricePoint)
    (h : prices.length < 30) : detectPatterns sqr prices = [] := by
  simp [detectPatterns, h]

/-- Witness for C9: a one-point series. -/
theorem detectPatterns_insufficient_data_witness :
    detectPatterns (fun _ => 0) [{ id := 0, date := 0, closePrice := 100 }] = [] :=
  detectPatterns_insufficient_data _ _ (by norm_num)

/-- C7 (amended): at index `i`, a `breakout_up` occurrence is emitted if
and only if the close exceeds the trailing-window high and the point's
`dailyChangePct` is non-null and exceeds 1.5; mirror for `breakout_down`
with the trailing-window low and `dailyChangePct < -1.5`.  In both
directions the point's `volatility7d` must additionally be non-null and
non-zero — the JS truthiness check
`!curr.dailyChangePct || !curr.volatility7d` is an extra gate the claim
omits. -/
theorem breakout_emission_iff (prices : List PricePoint) (i : Nat) :
    ((∃ p ∈ breakoutsAt prices i, p.patternType = "breakout_up") ↔
      ((prices.getD i default).closePrice >
          listMax ((((prices.drop (i - 20)).take 20)).map (·.closePrice)) ∧
        (∃ pct, (prices.getD i default).dailyChangePct = some pct ∧ pct > 3/2) ∧
        (∃ vol, (prices.getD i default).volatility7d = some vol ∧ vol ≠ 0))) ∧
    ((∃ p ∈ breakoutsAt prices i, p.patternType = "breakout_down") ↔
      ((prices.getD i default).closePrice <
          listMin ((((prices.drop (i - 20)).take 20)).map (·.closePrice)) ∧
        (∃ pct, (prices.getD i default).dailyChangePct = some pct ∧ pct < -(3/2)) ∧
        (∃ vol, (prices.getD i default).volatility7d = some vol ∧ vol ≠ 0))) := by
  unfold breakoutsAt
  rcases h1 : (prices.getD i default).dailyChangePct with _ | pct <;>
    rcases h2 : (prices.getD i default).volatility7d with _ | vol <;>
      simp only [h1, h2]
  · simp
  · simp
  · simp
  · by_cases hz : pct ≠ 0 ∧ vol ≠ 0
    · rw [if_pos hz]
      constructor
      · constructor
        · rintro ⟨p, hp, htype⟩
          rcases List.mem_append.mp hp with hmem | hmem
          · split_ifs at hmem with hc
            · simp only [List.mem_singleton] at hmem
              exact ⟨hc.1, ⟨pct, rfl, hc.2⟩, ⟨vol, rfl, hz.2⟩⟩
            · simp at hmem
          · split_ifs at hmem with hc
            · simp only [List.mem_singleton] at hmem
              rw [hmem] at htype
              simp at htype
            · simp at hmem
        · rintro ⟨hclose, ⟨pct', hpct', hgt⟩, -⟩
          obtain rfl : pct = pct' := by
            injection hpct'
          rw [if_pos ⟨hclose, hgt⟩]
          exact ⟨_, List.mem_append.mpr (Or.inl (List.mem_singleton.mpr rfl)), rfl⟩
      · constructor
        · rintro ⟨p, hp, htype⟩
          rcases List.mem_append.mp hp with hmem | hmem
          · split_ifs at hmem with hc
            · simp only [List.mem_singleton] at hmem
              rw [hmem] at htype
              simp at htype
            · simp at hmem
          · split_ifs at hmem with hc
            · simp only [List.mem_singleton] at hmem
              exact ⟨hc.1, ⟨pct, rfl, hc.2⟩, ⟨vol, rfl, hz.2⟩⟩
            · simp at hmem
        · rintro ⟨hclose, ⟨pct', hpct', hlt⟩, -⟩
          obtain rfl : pct = pct' := by
            injection hpct'
          have hcond : (prices.getD i default).closePrice <
              listMin ((((prices.drop (i - 20)).take 20)).map (·.closePrice)) ∧
                pct < -(3/2) := ⟨hclose, hlt⟩
          rw [if_pos hcond]
          exact ⟨_, List.mem_append.mpr (Or.inr (List.mem_singleton.mpr rfl)), rfl⟩
    · rw [if_neg hz]
      constructor
      · simp only [List.not_mem_nil, false_and, exists_false, false_iff]
        rintro ⟨-, ⟨pct', hpct', hgt⟩, ⟨vol', hvol', hvz⟩⟩
        obtain rfl : pct = pct' := by injection hpct'
        obtain rfl : vol = vol' := by injection hvol'
        exact hz ⟨by linarith, hvz⟩
      · simp only [List.not_mem_nil, false_and, exists_false, false_iff]
        rintro ⟨-, ⟨pct', hpct', hlt⟩, ⟨vol', hvol', hvz⟩⟩
        obtain rfl : pct = pct' := by injection hpct'
        obtain rfl : vol = vol' := by injection hvol'
        exact hz ⟨by linarith, hvz⟩

/-- The 21-point series refuting claim C7: index 20 breaks above the
trailing 20-day high with `dailyChangePct = 2 > 1.5`, but its
`volatility7d` is null, so the truthiness gate suppresses the breakout. -/
def gateSeries : List PricePoint :=
  [{ id := 0, date := 0, closePrice := 100 }, { id := 1, date := 1, closePrice := 100 },
   { id := 2, date := 2, closePrice := 100 }, { id := 3, date := 3, closePrice := 100 },
   { id := 4, date := 4, closePrice := 100 }, { id := 5, date := 5, closePrice := 100 },
   { id := 6, date := 6, closePrice := 100 }, { id := 7, date := 7, closePrice := 100 },
   { id := 8, date := 8, closePrice := 100 }, { id := 9, date := 9, closePrice := 100 },
   { id := 10, date := 10, closePrice := 100 }, { id := 11, date := 11, closePrice := 100 },
   { id := 12, date := 12, closePrice := 100 }, { id := 13, date := 13, closePrice := 100 },
   { id := 14, date := 14, closePrice := 100 }, { id := 15, date := 15, closePrice := 100 },
   { id := 16, date := 16, closePrice := 100 }, { id := 17, date := 17, closePrice := 100 },
   { id := 18, date := 18, closePrice := 100 }, { id := 19, date := 19, closePrice := 100 },
   { id := 20, date := 20, closePrice := 200, dailyChangePct := some 2 }]

set_option maxRecDepth 4000 in
/-- C7 counterexample: on `gateSeries`, index 20 satisfies the claim's
two stated conditions (close above the window high, `dailyChangePct`
above 1.5) yet `detectBreakouts` emits nothing, because `volatility7d`
is null. -/
theorem breakout_blocked_by_volatility_gate :
    (gateSeries.getD 20 default).closePrice >
      listMax (((gateSeries.drop 0).take 20).map (·.closePrice)) ∧
    (gateSeries.getD 20 default).dailyChangePct = some 2 ∧
    ((2 : ℚ) > 3/2) ∧
    (gateSeries.getD 20 default).volatility7d = none ∧
    detectBreakouts gateSeries = [] := by
  refine ⟨by decide, by decide, by norm_num, by decide, by decide⟩

theorem le_foldl_max (acc : ℚ) (l : List ℚ) : acc ≤ l.foldl max acc := by
  induction l generalizing acc with
  | nil => exact le_rfl
  | cons x xs ih => exact le_trans (le_max_left acc x) (ih (max acc x))

theorem foldl_min_le (acc : ℚ) (l : List ℚ) : l.foldl min acc ≤ acc := by
  induction l generalizing acc with
  | nil => exact le_rfl
  | cons x xs ih => exact le_trans (ih (min acc x)) (min_le_left acc x)

theorem listMin_le_listMax (l : List ℚ) : listMin l ≤ listMax l := by
  cases l with
  | nil => exact le_rfl
  | cons x xs => exact le_trans (foldl_min_le x xs) (le_foldl_max x xs)

theorem strength_nonneg {num range : ℚ} (hnum : 0 ≤ num) (hr : 0 ≤ range) :
    0 ≤ num / range * 100 := by
  rcases hr.eq_or_lt with h | h
  · rw [← h, div_zero, zero_mul]
  · exact mul_nonneg (div_nonneg hnum hr) (by norm_num)

theorem crossAt_mem {prev curr : PricePoint} {p : DetectedPattern}
    (hp : p ∈ crossAt prev curr) :
    p.confidence = 85/100 ∧
      ((p.patternType = "golden_cross" ∧ p.predictedMove = 5) ∨
        (p.patternType = "death_cross" ∧ p.predictedMove = -5)) := by
  unfold crossAt at hp
  split at hp
  · split_ifs at hp <;> simp only [List.mem_append, List.mem_singleton,
      List.not_mem_nil, or_false, false_or] at hp
    all_goals (first
      | (rcases hp with hp | hp <;> subst hp <;>
          exact ⟨rfl, by first | exact Or.inl ⟨rfl, rfl⟩ | exact Or.inr ⟨rfl, rfl⟩⟩)
      | (subst hp; exact ⟨rfl, by first | exact Or.inl ⟨rfl, rfl⟩ | exact Or.inr ⟨rfl, rfl⟩⟩))
  · simp at hp

theorem detectCrossPatterns_mem : ∀ {l : List PricePoint} {p : DetectedPattern},
    p ∈ detectCrossPatterns l →
    p.confidence = 85/100 ∧
      ((p.patternType = "golden_cross" ∧ p.predictedMove = 5) ∨
        (p.patternType = "death_cross" ∧ p.predictedMove = -5)) := by
  intro l
  induction l with
  | nil => intro p hp; simp [detectCrossPatterns] at hp
  | cons a t ih =>
    intro p hp
    cases t with
    | nil => simp [detectCrossPatterns] at hp
    | cons b t2 =>
      rw [detectCrossPatterns] at hp
      rcases List.mem_append.mp hp with h | h
      · exact crossAt_mem h
      · exact ih h

theorem breakoutsAt_mem {prices : List PricePoint} {i : Nat} {p : DetectedPattern}
    (hp : p ∈ breakoutsAt prices i) :
    (1/2 ≤ p.confidence ∧ p.confidence ≤ 9/10) ∧
      ((p.patternType = "breakout_up" ∧ 2 ≤ p.predictedMove ∧ p.predictedMove ≤ 8) ∨
        (p.patternType = "breakout_down" ∧
          -8 ≤ p.predictedMove ∧ p.predictedMove ≤ -2)) := by
  simp only [breakoutsAt] at hp
  split at hp
  case _ pct vol =>
    split_ifs at hp with hz hup hdown hdown
    · -- both breakout conditions fired
      have hrange : (0:ℚ) ≤
          listMax (((prices.drop (i - 20)).take 20).map (·.closePrice)) -
            listMin (((prices.drop (i - 20)).take 20).map (·.closePrice)) :=
        sub_nonneg.mpr (listMin_le_listMax _)
      simp only [List.mem_append, List.mem_singleton] at hp
      rcases hp with hp | hp <;> subst hp
      · have hs := strength_nonneg (sub_nonneg.mpr (le_of_lt hup.1)) hrange
        exact ⟨⟨le_min (by norm_num) (by linarith), min_le_left _ _⟩,
          Or.inl ⟨rfl, le_min (by norm_num) (by linarith), min_le_left _ _⟩⟩
      · have hs := strength_nonneg (sub_nonneg.mpr (le_of_lt hdown.1)) hrange
        refine ⟨⟨le_min (by norm_num) (by linarith), min_le_left _ _⟩,
          Or.inr ⟨rfl, ?_, ?_⟩⟩
        · simp
        · have hm : (2:ℚ) ≤ min 8 (2 + (listMin (((prices.drop (i - 20)).take 20).map
              (·.closePrice)) - (prices.getD i default).closePrice) /
              (listMax (((prices.drop (i - 20)).take 20).map (·.closePrice)) -
                listMin (((prices.drop (i - 20)).take 20).map (·.closePrice))) * 100 / 10) :=
            le_min (by norm_num) (by linarith)
          linarith
    · -- only the up condition fired
      have hrange : (0:ℚ) ≤
          listMax (((prices.drop (i - 20)).take 20).map (·.closePrice)) -
            listMin (((prices.drop (i - 20)).take 20).map (·.closePrice)) :=
        sub_nonneg.mpr (listMin_le_listMax _)
      simp only [List.append_nil, List.mem_singleton] at hp
      subst hp
      have hs := strength_nonneg (sub_nonneg.mpr (le_of_lt hup.1)) hrange
      exact ⟨⟨le_min (by norm_num) (by linarith), min_le_left _ _⟩,
        Or.inl ⟨rfl, le_min (by norm_num) (by linarith), min_le_left _ _⟩⟩
    · -- only the down condition fired
      have hrange : (0:ℚ) ≤
          listMax (((prices.drop (i - 20)).take 20).map (·.closePrice)) -
            listMin (((prices.drop (i - 20)).take 20).map (·.closePrice)) :=
        sub_nonneg.mpr (listMin_le_listMax _)
      simp only [List.nil_append, List.mem_singleton] at hp
      subst hp
      have hs := strength_nonneg (sub_nonneg.mpr (le_of_lt hdown.1)) hrange
      refine ⟨⟨le_min (by norm_num) (by linarith), min_le_left _ _⟩,
        Or.inr ⟨rfl, ?_, ?_⟩⟩
      · simp
      · have hm : (2:ℚ) ≤ min 8 (2 + (listMin (((prices.drop (i - 20)).take 20).map
            (·.closePrice)) - (prices.getD i default).closePrice) /
            (listMax (((prices.drop (i - 20)).take 20).map (·.closePrice)) -
              listMin (((prices.drop (i - 20)).take 20).map (·.closePrice))) * 100 / 10) :=
          le_min (by norm_num) (by linarith)
        linarith
    · simp at hp
    · simp at hp
  case _ =>
    simp at hp

theorem volSpikeFor_mem {std thr : ℚ} (hstd : 0 ≤ std) {p0 : PricePoint}
    {p : DetectedPattern} (hp : p ∈ volSpikeFor std thr p0) :
    (1/2 ≤ p.confidence ∧ p.confidence ≤ 9/10) ∧
      p.patternType = "high_volatility_spike" ∧ p.predictedMove = 0 := by
  unfold volSpikeFor at hp
  split at hp
  case _ v heq =>
    split_ifs at hp with hv
    · simp only [List.mem_singleton] at hp
      subst hp
      have hx : 0 ≤ (v - thr) / std * (1/10) := by
        rcases hstd.eq_or_lt with h | h
        · rw [← h, div_zero, zero_mul]
        · have := sub_pos.mpr hv
          positivity
      exact ⟨⟨le_min (by norm_num) (by linarith), min_le_left _ _⟩, rfl, rfl⟩
    · simp at hp
  case _ =>
    simp at hp

theorem variance_nonneg (l : List ℚ) (m : ℚ) :
    0 ≤ (l.map (fun v => (v - m) ^ 2)).sum / (l.length : ℚ) := by
  have hs : 0 ≤ (l.map (fun v => (v - m) ^ 2)).sum := by
    apply List.sum_nonneg
    intro x hx
    obtain ⟨v, -, rfl⟩ := List.mem_map.mp hx
    positivity
  positivity

theorem detectVolatilitySpikes_mem {sqr : ℚ → ℚ} (hsqr : ∀ x, 0 ≤ x → 0 ≤ sqr x)
    {prices : List PricePoint} {p : DetectedPattern}
    (hp : p ∈ detectVolatilitySpikes sqr prices) :
    (1/2 ≤ p.confidence ∧ p.confidence ≤ 9/10) ∧
      p.patternType = "high_volatility_spike" ∧ p.predictedMove = 0 := by
  simp only [detectVolatilitySpikes] at hp
  split_ifs at hp with hlen
  · simp at hp
  · obtain ⟨p0, -, hmem⟩ := List.mem_flatMap.mp hp
    exact volSpikeFor_mem (hsqr _ (variance_nonneg _ _)) hmem

theorem doubleTopFor_mem {prices : List PricePoint} {pair : Extremum × Extremum}
    {p : DetectedPattern} (hp : p ∈ doubleTopFor prices pair) :
    (13/20 ≤ p.confidence ∧ p.confidence ≤ 85/100) ∧
      p.patternType = "double_top" ∧
      -8 ≤ p.predictedMove ∧ p.predictedMove ≤ -3 := by
  simp only [doubleTopFor] at hp
  split_ifs at hp with hdays hdiff hdepth
  · simp at hp
  · simp only [List.mem_singleton] at hp
    subst hp
    refine ⟨⟨le_min (by norm_num) (by linarith), min_le_left _ _⟩, rfl, ?_, ?_⟩
    · simp
    · have hm : (3:ℚ) ≤ min 8 (((pair.1.price.closePrice + pair.2.price.closePrice) / 2 -
          listMin (((prices.drop pair.1.index).take
            (pair.2.index + 1 - pair.1.index)).map (·.closePrice))) /
          ((pair.1.price.closePrice + pair.2.price.closePrice) / 2) * 100) :=
        le_min (by norm_num) (by linarith)
      linarith
  · simp at hp
  · simp at hp

theorem doubleBottomFor_mem {prices : List PricePoint} {pair : Extremum × Extremum}
    {p : DetectedPattern} (hp : p ∈ doubleBottomFor prices pair) :
    (13/20 ≤ p.confidence ∧ p.confidence ≤ 85/100) ∧
      p.patternType = "double_bottom" ∧
      3 ≤ p.predictedMove ∧ p.predictedMove ≤ 8 := by
  simp only [doubleBottomFor] at hp
  split_ifs at hp with hdays hdiff hheight
  · simp at hp
  · simp only [List.mem_singleton] at hp
    subst hp
    refine ⟨⟨le_min (by norm_num) (by linarith), min_le_left _ _⟩, rfl, ?_, ?_⟩
    · exact le_min (by norm_num) (by linarith)
    · exact min_le_left _ _
  · simp at hp
  · simp at hp

theorem detectDoublePatterns_mem {prices : List PricePoint} {p : DetectedPattern}
    (hp : p ∈ detectDoublePatterns prices) :
    (13/20 ≤ p.confidence ∧ p.confidence ≤ 85/100) ∧
      ((p.patternType = "double_top" ∧ -8 ≤ p.predictedMove ∧ p.predictedMove ≤ -3) ∨
        (p.patternType = "double_bottom" ∧ 3 ≤ p.predictedMove ∧ p.predictedMove ≤ 8)) := by
  unfold detectDoublePatterns at hp
  rcases List.mem_append.mp hp with h | h
  · obtain ⟨pair, -, hmem⟩ := List.mem_flatMap.mp h
    obtain ⟨hc, ht, hm⟩ := doubleTopFor_mem hmem
    exact ⟨hc, Or.inl ⟨ht, hm⟩⟩
  · obtain ⟨pair, -, hmem⟩ := List.mem_flatMap.mp h
    obtain ⟨hc, ht, hm⟩ := doubleBottomFor_mem hmem
    exact ⟨hc, Or.inr ⟨ht, hm⟩⟩

/-- C8: every pattern occurrence emitted by `detectPatterns` (over all
four sub-detectors) has `confidence ∈ [0, 1]` and a `predictedMove`
within the documented per-pattern cap: exactly ±5 for crossovers,
magnitude at most 8 for breakouts and double top/bottom, and exactly 0
for volatility spikes.  `sqr` models `Math.sqrt` and is assumed
nonnegative on nonnegative inputs. -/
theorem detectPatterns_bounds (sqr : ℚ → ℚ) (hsqr : ∀ x, 0 ≤ x → 0 ≤ sqr x)
    (prices : List PricePoint) (p : DetectedPattern)
    (hp : p ∈ detectPatterns sqr prices) :
    (0 ≤ p.confidence ∧ p.confidence ≤ 1) ∧
    (p.patternType = "golden_cross" → p.predictedMove = 5) ∧
    (p.patternType = "death_cross" → p.predictedMove = -5) ∧
    ((p.patternType = "breakout_up" ∨ p.patternType = "breakout_down") →
      |p.predictedMove| ≤ 8) ∧
    ((p.patternType = "double_top" ∨ p.patternType = "double_bottom") →
      |p.predictedMove| ≤ 8) ∧
    (p.patternType = "high_volatility_spike" → p.predictedMove = 0) := by
  rw [detectPatterns] at hp
  split_ifs at hp with hlen
  · simp at hp
  · rw [mem_sortBy] at hp
    rcases List.mem_append.mp hp with h3 | hdouble
    rcases List.mem_append.mp h3 with h2 | hvol
    rcases List.mem_append.mp h2 with hcross | hbreak
    · obtain ⟨hc, hd⟩ := detectCrossPatterns_mem hcross
      rcases hd with ⟨ht, hm⟩ | ⟨ht, hm⟩ <;>
        refine ⟨⟨by rw [hc]; norm_num, by rw [hc]; norm_num⟩, ?_, ?_, ?_, ?_, ?_⟩ <;>
          (intro hx; first
            | exact hm
            | (rw [ht] at hx; exact absurd hx (by decide)))
    · obtain ⟨⟨hc1, hc2⟩, hd⟩ := breakoutsAt_mem (List.mem_flatMap.mp hbreak).choose_spec.2
      rcases hd with ⟨ht, hm1, hm2⟩ | ⟨ht, hm1, hm2⟩ <;>
        refine ⟨⟨by linarith, by linarith⟩, ?_, ?_, ?_, ?_, ?_⟩ <;>
          (intro hx; first
            | exact abs_le.mpr ⟨by linarith, by linarith⟩
            | (rw [ht] at hx; exact absurd hx (by decide)))
    · obtain ⟨⟨hc1, hc2⟩, ht, hm⟩ := detectVolatilitySpikes_mem hsqr hvol
      refine ⟨⟨by linarith, by linarith⟩, ?_, ?_, ?_, ?_, ?_⟩ <;>
        (intro hx; first
          | exact hm
          | (rw [ht] at hx; exact absurd hx (by decide)))
    · obtain ⟨⟨hc1, hc2⟩, hd⟩ := detectDoublePatterns_mem hdouble
      rcases hd with ⟨ht, hm1, hm2⟩ | ⟨ht, hm1, hm2⟩ <;>
        refine ⟨⟨by linarith, by linarith⟩, ?_, ?_, ?_, ?_, ?_⟩ <;>
          (intro hx; first
            | exact abs_le.mpr ⟨by linarith, by linarith⟩
            | (rw [ht] at hx; exact absurd hx (by decide)))

/-- The 30-point series used by the C8 witness: flat at 100 with a dip
to 90 at index 5 and a breakout to 110 at index 25 (the only point with
truthy `dailyChangePct` and `volatility7d`). -/
def breakoutWitnessSeries : List PricePoint :=
  [{ id := 0, date := 0, closePrice := 100 },
   { id := 1, date := 1, closePrice := 100 },
   { id := 2, date := 2, closePrice := 100 },
   { id := 3, date := 3, closePrice := 100 },
   { id := 4, date := 4, closePrice := 100 },
   { id := 5, date := 5, closePrice := 90 },
   { id := 6, date := 6, closePrice := 100 },
   { id := 7, date := 7, closePrice := 100 },
   { id := 8, date := 8, closePrice := 100 },
   { id := 9, date := 9, closePrice := 100 },
   { id := 10, date := 10, closePrice := 100 },
   { id := 11, date := 11, closePrice := 100 },
   { id := 12, date := 12, closePrice := 100 },
   { id := 13, date := 13, closePrice := 100 },
   { id := 14, date := 14, closePrice := 100 },
   { id := 15, date := 15, closePrice := 100 },
   { id := 16, date := 16, closePrice := 100 },
   { id := 17, date := 17, closePrice := 100 },
   { id := 18, date := 18, closePrice := 100 },
   { id := 19, date := 19, closePrice := 100 },
   { id := 20, date := 20, closePrice := 100 },
   { id := 21, date := 21, closePrice := 100 },
   { id := 22, date := 22, closePrice := 100 },
   { id := 23, date := 23, closePrice := 100 },
   { id := 24, date := 24, closePrice := 100 },
   { id := 25, date := 25, closePrice := 110, dailyChangePct := some 2, volatility7d := some 1 },
   { id := 26, date := 26, closePrice := 100 },
   { id := 27, date := 27, closePrice := 100 },
   { id := 28, date := 28, closePrice := 100 },
   { id := 29, date := 29, closePrice := 100 }]

/-- The single occurrence `detectPatterns` finds on
`breakoutWitnessSeries`. -/
def breakoutOcc : DetectedPattern :=
  { patternType := "breakout_up", startDate := 25, endDate := 25,
    startPriceId := 25, confidence := 9/10, predictedMove := 8,
    details := "Price broke above 20-day high" }

set_option maxRecDepth 8000 in
theorem detectBreakouts_witnessSeries :
    detectBreakouts breakoutWitnessSeries = [breakoutOcc] := by
  have hr : (List.range breakoutWitnessSeries.length).drop 20 =
      [20, 21, 22, 23, 24, 25, 26, 27, 28, 29] := by decide
  have h20 : breakoutsAt breakoutWitnessSeries 20 = [] := by decide
  have h21 : breakoutsAt breakoutWitnessSeries 21 = [] := by decide
  have h22 : breakoutsAt breakoutWitnessSeries 22 = [] := by decide
  have h23 : breakoutsAt breakoutWitnessSeries 23 = [] := by decide
  have h24 : breakoutsAt breakoutWitnessSeries 24 = [] := by decide
  have h26 : breakoutsAt breakoutWitnessSeries 26 = [] := by decide
  have h27 : breakoutsAt breakoutWitnessSeries 27 = [] := by decide
  have h28 : breakoutsAt breakoutWitnessSeries 28 = [] := by decide
  have h29 : breakoutsAt breakoutWitnessSeries 29 = [] := by decide
  have hcurr : breakoutWitnessSeries.getD 25 default =
      { id := 25, date := 25, closePrice := 110, dailyChangePct := some 2,
        volatility7d := some 1 } := by decide
  have hmax : listMax (List.take 20 (List.drop 5
      (breakoutWitnessSeries.map (·.closePrice)))) = 100 := by decide
  have hmin : listMin (List.take 20 (List.drop 5
      (breakoutWitnessSeries.map (·.closePrice)))) = 90 := by decide
  have h25 : breakoutsAt breakoutWitnessSeries 25 = [breakoutOcc] := by
    rw [breakoutsAt, hcurr]
    norm_num [hmax, hmin, breakoutOcc, min_def]
  rw [detectBreakouts, hr]
  simp [h20, h21, h22, h23, h24, h25, h26, h27, h28, h29]

set_option maxRecDepth 8000 in
theorem detectPatterns_witnessSeries_mem :
    breakoutOcc ∈ detectPatterns (fun _ => 0) breakoutWitnessSeries := by
  have hcross : detectCrossPatterns breakoutWitnessSeries = [] := by decide
  have hdoub : detectDoublePatterns breakoutWitnessSeries = [] := by decide
  have hvolat : breakoutWitnessSeries.filterMap (·.volatility7d) = [1] := by decide
  have hvol : detectVolatilitySpikes (fun _ => 0) breakoutWitnessSeries = [] := by
    rw [detectVolatilitySpikes, hvolat]
    norm_num [volSpikeFor]
    intro p hp
    rcases hv : p.volatility7d with _ | v
    · simp [hv]
    · have : v = 1 := by
        have : v ∈ breakoutWitnessSeries.filterMap (·.volatility7d) := by
          exact List.mem_filterMap.mpr ⟨p, hp, hv⟩
        rw [hvolat] at this
        simpa using this
      simp [hv, this]
  have hlen : ¬ (breakoutWitnessSeries.length < 30) := by decide
  rw [detectPatterns, if_neg hlen, mem_sortBy, hcross, detectBreakouts_witnessSeries,
    hvol, hdoub]
  simp

/-- Witness for C8: the breakout occurrence found on
`breakoutWitnessSeries` satisfies the bounds. -/
theorem detectPatterns_bounds_witness :
    (0 ≤ breakoutOcc.confidence ∧ breakoutOcc.confidence ≤ 1) ∧
      |breakoutOcc.predictedMove| ≤ 8 := by
  have h := detectPatterns_bounds (fun _ => 0) (fun x _ => le_refl 0)
    breakoutWitnessSeries breakoutOcc detectPatterns_witnessSeries_mem
  exact ⟨h.1, h.2.2.2.1 (Or.inl rfl)⟩

end PatternDetector

/-! ## Signal Predictor (`generatePrediction`, predictor.ts) -/

namespace Predictor

/-- Source group of a prediction signal. -/
inductive SignalSource | technical | pattern | news | economic
deriving DecidableEq

/-- Direction of a prediction signal. -/
inductive SignalDir | bullish | bearish | neutral
deriving DecidableEq

/-- A transient prediction signal. -/
structure PredictionSignal where
  source : SignalSource
  name : String
  direction : SignalDir
  strength : ℚ
  description : String
deriving DecidableEq

/-- Predicted direction of the blended prediction. -/
inductive PredDirection | up | down | sideways
deriving DecidableEq

@[simp] theorem PredDirection.up_ne_sideways :
    PredDirection.up ≠ PredDirection.sideways := by decide

@[simp] theorem PredDirection.down_ne_sideways :
    PredDirection.down ≠ PredDirection.sideways := by decide

/-- The fused part of a `Prediction` (direction, change, confidence). -/
structure FusionResult where
  predictedDirection : PredDirection
  predictedChange : ℚ
  confidence : ℚ
deriving DecidableEq

/-- `sourceWeights` of `generatePrediction`. -/
def sourceWeight : SignalSource → ℚ
  | .technical => 35/100
  | .pattern => 25/100
  | .news => 25/100
  | .economic => 15/100

/-- `weight = sourceWeights[signal.source] * (signal.strength / 100)`. -/
def signalWeight (s : PredictionSignal) : ℚ :=
  sourceWeight s.source * (s.strength / 100)

/-- Accumulated `totalWeight` over all signals. -/
def totalWeight (sigs : List PredictionSignal) : ℚ :=
  (sigs.map signalWeight).sum

/-- Accumulated `bullishScore`. -/
def bullishScore (sigs : List PredictionSignal) : ℚ :=
  ((sigs.filter (fun s => s.direction == SignalDir.bullish)).map signalWeight).sum

/-- Accumulated `bearishScore`. -/
def bearishScore (sigs : List PredictionSignal) : ℚ :=
  ((sigs.filter (fun s => s.direction == SignalDir.bearish)).map signalWeight).sum

/-- `netScore = totalWeight > 0 ? (bullishScore - bearishScore) / totalWeight : 0`. -/
def fusionNetScore (sigs : List PredictionSignal) : ℚ :=
  if totalWeight sigs > 0 then (bullishScore sigs - bearishScore sigs) / totalWeight sigs
  else 0

/-- The fusion step of `generatePrediction` (direction, confidence and
predicted change from the gathered signals). -/
def fusePrediction (sigs : List PredictionSignal) : FusionResult :=
  let netScore := fusionNetScore sigs
  if |netScore| < 1/10 then
    { predictedDirection := .sideways, predictedChange := 0,
      confidence := 30 + (1 - |netScore| * 10) * 20 }
  else if netScore > 0 then
    { predictedDirection := .up, predictedChange := netScore * 5,
      confidence := min (50 + netScore * 50) 90 }
  else
    { predictedDirection := .down, predictedChange := netScore * 5,
      confidence := min (50 + |netScore| * 50) 90 }

/-- `calculateRSI` (Wilder-style simple averages over the trailing 14
changes; neutral 50 below 15 points, 100 when there are no losses). -/
def calculateRSI (prices : List ℚ) (period : Nat) : ℚ :=
  if prices.length < period + 1 then 50
  else
    let changes := (prices.zip (prices.drop 1)).map (fun c => c.2 - c.1)
    let recentChanges := changes.drop (changes.length - period)
    let gains := recentChanges.filter (fun c => decide (c > 0))
    let losses := (recentChanges.filter (fun c => decide (c < 0))).map (fun c => -c)
    let avgGain := if gains.length > 0 then gains.sum / (period : ℚ) else 0
    let avgLoss := if losses.length > 0 then losses.sum / (period : ℚ) else 0
    if avgLoss = 0 then 100
    else 100 - 100 / (1 + avgGain / avgLoss)

/-- The inner `ema` helper of `calculateMACD`. -/
def emaCalc (data : List ℚ) (period : Nat) : ℚ :=
  let k : ℚ := 2 / ((period : ℚ) + 1)
  match data with
  | [] => 0
  | x :: xs => xs.foldl (fun e d => d * k + e * (1 - k)) x

/-- `data.slice(-n)`. -/
def lastN (n : Nat) (l : List α) : List α := l.drop (l.length - n)

/-- Result of `calculateMACD`. -/
structure MACDData where
  macd : ℚ
  signalLine : ℚ
  histogram : ℚ
deriving DecidableEq

/-- `calculateMACD`: 12/26-period EMA difference with the source's
simplified signal line (an EMA of the single latest MACD value). -/
def calculateMACD (prices : List ℚ) : MACDData :=
  if prices.length < 26 then ⟨0, 0, 0⟩
  else
    let ema12 := emaCalc (lastN 12 prices) 12
    let ema26 := emaCalc (lastN 26 prices) 26
    let macd := ema12 - ema26
    let signalLine := emaCalc [macd] 9
    ⟨macd, signalLine, macd - signalLine⟩

/-- The price record shape read by `detectTechnicalPatterns`. -/
structure PriceRecord where
  closePrice : ℚ := 0
  sma50 : Option ℚ := none
  sma200 : Option ℚ := none
deriving DecidableEq, Inhabited

/-- `detectTechnicalPatterns`: the four technical signal branches (RSI,
MACD, SMA50-vs-SMA200 gap, 5-vs-20-day trend), in source order.  The
numeric interpolation of the description strings is elided. -/
def detectTechnicalPatterns (prices : List PriceRecord) : List PredictionSignal :=
  let closePrices := prices.map (·.closePrice)
  let rsi := calculateRSI closePrices 14
  let rsiSignals : List PredictionSignal :=
    if rsi > 70 then
      [{ source := .technical, name := "RSI Overbought", direction := .bearish,
         strength := min ((rsi - 70) * 3) 100,
         description := "RSI indicates overbought conditions" }]
    else if rsi < 30 then
      [{ source := .technical, name := "RSI Oversold", direction := .bullish,
         strength := min ((30 - rsi) * 3) 100,
         description := "RSI indicates oversold conditions" }]
    else []
  let macdData := calculateMACD closePrices
  let macdSignals : List PredictionSignal :=
    if macdData.histogram > 0 ∧ macdData.macd > macdData.signalLine then
      [{ source := .technical, name := "MACD Bullish", direction := .bullish,
         strength := min (|macdData.histogram| * 10) 80,
         description := "MACD crossed above signal line" }]
    else if macdData.histogram < 0 ∧ macdData.macd < macdData.signalLine then
      [{ source := .technical, name := "MACD Bearish", direction := .bearish,
         strength := min (|macdData.histogram| * 10) 80,
         description := "MACD crossed below signal line" }]
    else []
  let latest := prices.getD (prices.length - 1) default
  let smaSignals : List PredictionSignal :=
    match latest.sma50, latest.sma200 with
    | some s50, some s200 =>
      if s50 ≠ 0 ∧ s200 ≠ 0 then
        let diff := (s50 - s200) / s200 * 100
        if diff > 0 then
          [{ source := .technical, name := "Golden Cross Active", direction := .bullish,
             strength := min (diff * 5) 70,
             description := "50-day SMA above 200-day SMA" }]
        else
          [{ source := .technical, name := "Death Cross Active", direction := .bearish,
             strength := min (|diff| * 5) 70,
             description := "50-day SMA below 200-day SMA" }]
      else []
    | _, _ => []
  let trendSignals : List PredictionSignal :=
    if prices.length ≥ 20 then
      let recent5 := ((lastN 5 prices).map (·.closePrice)).sum / 5
      let recent20 := ((lastN 20 prices).map (·.closePrice)).sum / 20
      let trendStrength := (recent5 - recent20) / recent20 * 100
      if |trendStrength| > 1 then
        [{ source := .technical,
           name := if trendStrength > 0 then "Uptrend" else "Downtrend",
           direction := if trendStrength > 0 then .bullish else .bearish,
           strength := min (|trendStrength| * 20) 60,
           description := "Price moving away from 20-day average" }]
      else []
    else []
  rsiSignals ++ macdSignals ++ smaSignals ++ trendSignals

theorem sourceWeight_pos (src : SignalSource) : 0 < sourceWeight src := by
  cases src <;> norm_num [sourceWeight]

theorem signalWeight_nonneg {s : PredictionSignal} (h : 0 ≤ s.strength) :
    0 ≤ signalWeight s :=
  mul_nonneg (le_of_lt (sourceWeight_pos s.source)) (by positivity)

theorem signalWeight_pos {s : PredictionSignal} (h : 0 < s.strength) :
    0 < signalWeight s :=
  mul_pos (sourceWeight_pos s.source) (by positivity)

theorem totalWeight_cons (a : PredictionSignal) (t : List PredictionSignal) :
    totalWeight (a :: t) = signalWeight a + totalWeight t := by
  simp [totalWeight]

theorem bullishScore_cons (a : PredictionSignal) (t : List PredictionSignal) :
    bullishScore (a :: t) =
      (if a.direction = SignalDir.bullish then signalWeight a else 0) + bullishScore t := by
  simp only [bullishScore, List.filter_cons]
  split_ifs with h1 h2 h2 <;> simp_all

theorem bearishScore_cons (a : PredictionSignal) (t : List PredictionSignal) :
    bearishScore (a :: t) =
      (if a.direction = SignalDir.bearish then signalWeight a else 0) + bearishScore t := by
  simp only [bearishScore, List.filter_cons]
  split_ifs with h1 h2 h2 <;> simp_all

theorem score_sums (sigs : List PredictionSignal)
    (h : ∀ s ∈ sigs, 0 ≤ s.strength) :
    0 ≤ bullishScore sigs ∧ 0 ≤ bearishScore sigs ∧
      bullishScore sigs + bearishScore sigs ≤ totalWeight sigs := by
  induction sigs with
  | nil => norm_num [bullishScore, bearishScore, totalWeight]
  | cons a t ih =>
    have ha : 0 ≤ signalWeight a := signalWeight_nonneg (h a (by simp))
    obtain ⟨h1, h2, h3⟩ := ih (fun s hs => h s (by simp [hs]))
    rw [bullishScore_cons, bearishScore_cons, totalWeight_cons]
    rcases hd : a.direction <;> simp [hd] <;> constructor <;> first
      | linarith
      | (constructor <;> linarith)

theorem fusionNetScore_abs_le_one (sigs : List PredictionSignal)
    (h : ∀ s ∈ sigs, 0 ≤ s.strength) : |fusionNetScore sigs| ≤ 1 := by
  obtain ⟨h1, h2, h3⟩ := score_sums sigs h
  unfold fusionNetScore
  split_ifs with ht
  · rw [abs_div, abs_of_pos ht, div_le_one ht]
    exact abs_le.mpr ⟨by linarith, by linarith⟩
  · simp

/-- C10: for every collection of gathered signals (in particular any with
nonnegative strengths, which all gatherers produce), the fused
prediction has `netScore ∈ [-1, 1]`, `confidence ∈ [30, 90]` and
`|predictedChange| ≤ 5`; the sideways branch yields
`confidence ∈ (30, 50]` with zero change, and the directional branches
yield `confidence ∈ [55, 90]`. -/
theorem fusePrediction_bounds (sigs : List PredictionSignal)
    (h : ∀ s ∈ sigs, 0 ≤ s.strength) :
    |fusionNetScore sigs| ≤ 1 ∧
    (30 ≤ (fusePrediction sigs).confidence ∧ (fusePrediction sigs).confidence ≤ 90) ∧
    |(fusePrediction sigs).predictedChange| ≤ 5 ∧
    ((fusePrediction sigs).predictedDirection = PredDirection.sideways →
      30 < (fusePrediction sigs).confidence ∧ (fusePrediction sigs).confidence ≤ 50 ∧
        (fusePrediction sigs).predictedChange = 0) ∧
    ((fusePrediction sigs).predictedDirection ≠ PredDirection.sideways →
      55 ≤ (fusePrediction sigs).confidence) := by
  have habs := fusionNetScore_abs_le_one sigs h
  have h0 : 0 ≤ |fusionNetScore sigs| := abs_nonneg _
  simp only [fusePrediction]
  split_ifs with hns hpos
  · dsimp only
    refine ⟨habs, ⟨by nlinarith, by nlinarith⟩, by simp, fun _ => ⟨by nlinarith,
      by nlinarith, rfl⟩, fun hc => absurd rfl hc⟩
  · have hge : 1/10 ≤ fusionNetScore sigs := by
      rw [abs_lt, not_and_or, not_lt, not_lt] at hns
      rcases hns with h' | h'
      · linarith
      · exact h'
    have hup : fusionNetScore sigs ≤ 1 := (abs_le.mp habs).2
    dsimp only
    have h55 : (55:ℚ) ≤ min (50 + fusionNetScore sigs * 50) 90 :=
      le_min (by linarith) (by norm_num)
    refine ⟨habs, ⟨by linarith, min_le_right _ _⟩, ?_,
      fun hc => hc.elim, fun _ => h55⟩
    rw [abs_mul, abs_of_pos (by norm_num : (0:ℚ) < 5)]
    nlinarith
  · have hle : fusionNetScore sigs ≤ -(1/10) := by
      rw [abs_lt, not_and_or, not_lt, not_lt] at hns
      rcases hns with h' | h'
      · linarith
      · push_neg at hpos
        linarith
    have hlow : -1 ≤ fusionNetScore sigs := (abs_le.mp habs).1
    have habs' : |fusionNetScore sigs| = -fusionNetScore sigs :=
      abs_of_nonpos (by linarith)
    dsimp only
    have h55 : (55:ℚ) ≤ min (50 + |fusionNetScore sigs| * 50) 90 := by
      refine le_min ?_ (by norm_num)
      rw [habs']
      linarith
    refine ⟨habs, ⟨by linarith, min_le_right _ _⟩, ?_,
      fun hc => hc.elim, fun _ => h55⟩
    rw [abs_mul, abs_of_pos (by norm_num : (0:ℚ) < 5)]
    nlinarith

/-- The concrete signals used by the C6 and C10 witnesses. -/
def bullishNewsSig : PredictionSignal :=
  { source := SignalSource.news
    name := "News Sentiment"
    direction := SignalDir.bullish
    strength := 50
    description := "news" }

/-- A bearish technical signal of strength 50. -/
def bearishRsiSig : PredictionSignal :=
  { source := SignalSource.technical
    name := "RSI Overbought"
    direction := SignalDir.bearish
    strength := 50
    description := "rsi" }

/-- Witness for C10: the fusion bounds at one concrete bullish signal of
strength 50. -/
theorem fusePrediction_bounds_witness :
    30 ≤ (fusePrediction [bullishNewsSig]).confidence ∧
      (fusePrediction [bullishNewsSig]).confidence ≤ 90 :=
  (fusePrediction_bounds [bullishNewsSig]
    (by intro s hs; simp at hs; subst hs; norm_num [bullishNewsSig])).2.1

theorem bullish_filter_all (sigs : List PredictionSignal)
    (h : ∀ s ∈ sigs, s.direction = SignalDir.bullish) :
    bullishScore sigs = totalWeight sigs ∧ bearishScore sigs = 0 := by
  constructor
  · unfold bullishScore totalWeight
    rw [List.filter_eq_self.mpr (fun a ha => by simp [h a ha])]
  · unfold bearishScore
    rw [List.filter_eq_nil_iff.mpr (fun a ha => by simp [h a ha])]
    simp

theorem bearish_filter_all (sigs : List PredictionSignal)
    (h : ∀ s ∈ sigs, s.direction = SignalDir.bearish) :
    bearishScore sigs = totalWeight sigs ∧ bullishScore sigs = 0 := by
  constructor
  · unfold bearishScore totalWeight
    rw [List.filter_eq_self.mpr (fun a ha => by simp [h a ha])]
  · unfold bullishScore
    rw [List.filter_eq_nil_iff.mpr (fun a ha => by simp [h a ha])]
    simp

theorem totalWeight_pos_of_mem {sigs : List PredictionSignal}
    (hall : ∀ s ∈ sigs, 0 ≤ s.strength) {a : PredictionSignal} (ha : a ∈ sigs)
    (hpos : 0 < a.strength) : 0 < totalWeight sigs := by
  induction sigs with
  | nil => simp at ha
  | cons b t ih =>
    rw [totalWeight_cons]
    have hb : 0 ≤ signalWeight b := signalWeight_nonneg (hall b (by simp))
    rcases List.mem_cons.mp ha with rfl | hat
    · have hwt : 0 ≤ totalWeight t := by
        unfold totalWeight
        apply List.sum_nonneg
        intro x hx
        obtain ⟨s, hs, rfl⟩ := List.mem_map.mp hx
        exact signalWeight_nonneg (hall s (by simp [hs]))
      have := signalWeight_pos hpos
      linarith
    · have := ih (fun s hs => hall s (by simp [hs])) hat
      linarith

/-- C6 (amended): if every gathered signal is bullish, with nonnegative
strengths and at least one strictly positive strength, the fusion
returns direction "up" with `predictedChange = 5 > 0`; symmetrically,
all-bearish signals with some positive strength yield "down" with
`predictedChange = -5 < 0`.  (The positive-strength proviso is forced:
a gatherable zero-strength signal — e.g. "Death Cross Active" with
`sma50 = sma200` — contributes zero weight, and a collection of only
such signals fuses to "sideways".) -/
theorem fusion_sidedness :
    (∀ sigs : List PredictionSignal,
      (∀ s ∈ sigs, s.direction = SignalDir.bullish ∧ 0 ≤ s.strength) →
      (∃ s ∈ sigs, 0 < s.strength) →
      (fusePrediction sigs).predictedDirection = PredDirection.up ∧
        0 < (fusePrediction sigs).predictedChange) ∧
    (∀ sigs : List PredictionSignal,
      (∀ s ∈ sigs, s.direction = SignalDir.bearish ∧ 0 ≤ s.strength) →
      (∃ s ∈ sigs, 0 < s.strength) →
      (fusePrediction sigs).predictedDirection = PredDirection.down ∧
        (fusePrediction sigs).predictedChange < 0) := by
  constructor
  · intro sigs h hex
    obtain ⟨a, ha, hapos⟩ := hex
    have ht : 0 < totalWeight sigs :=
      totalWeight_pos_of_mem (fun s hs => (h s hs).2) ha hapos
    obtain ⟨hb, hbe⟩ := bullish_filter_all sigs (fun s hs => (h s hs).1)
    have hnet : fusionNetScore sigs = 1 := by
      rw [fusionNetScore, if_pos ht, hb, hbe, sub_zero, div_self (ne_of_gt ht)]
    rw [fusePrediction, hnet]
    norm_num
  · intro sigs h hex
    obtain ⟨a, ha, hapos⟩ := hex
    have ht : 0 < totalWeight sigs :=
      totalWeight_pos_of_mem (fun s hs => (h s hs).2) ha hapos
    obtain ⟨hbe, hb⟩ := bearish_filter_all sigs (fun s hs => (h s hs).1)
    have hnet : fusionNetScore sigs = -1 := by
      rw [fusionNetScore, if_pos ht, hb, hbe, zero_sub, neg_div,
        div_self (ne_of_gt ht)]
    rw [fusePrediction, hnet]
    norm_num

/-- Witness for C6 (amended): a bullish and a bearish singleton of
strength 50. -/
theorem fusion_sidedness_witness :
    (fusePrediction [bullishNewsSig]).predictedDirection = PredDirection.up ∧
    (fusePrediction [bearishRsiSig]).predictedDirection = PredDirection.down := by
  constructor
  · exact (fusion_sidedness.1 [bullishNewsSig]
      (by intro s hs; simp at hs; subst hs; exact ⟨rfl, by norm_num [bullishNewsSig]⟩)
      ⟨bullishNewsSig, by simp, by norm_num [bullishNewsSig]⟩).1
  · exact (fusion_sidedness.2 [bearishRsiSig]
      (by intro s hs; simp at hs; subst hs; exact ⟨rfl, by norm_num [bearishRsiSig]⟩)
      ⟨bearishRsiSig, by simp, by norm_num [bearishRsiSig]⟩).1

/-- The series refuting claim C6: five flat closes with
`sma50 = sma200 = 100` at the last point, so the only gathered signal is
"Death Cross Active" with strength `min(|0| * 5, 70) = 0`. -/
def flatTechSeries : List PriceRecord :=
  [{ closePrice := 100 }, { closePrice := 100 }, { closePrice := 100 },
   { closePrice := 100 },
   { closePrice := 100, sma50 := some 100, sma200 := some 100 }]

/-- C6 counterexample: `detectTechnicalPatterns` gathers a nonempty,
all-bearish signal collection on `flatTechSeries`, yet the fusion
returns "sideways" with `predictedChange = 0` (not "down" with a
negative change): the lone bearish signal has strength 0, so the total
weight is 0 and `netScore = 0`. -/
theorem all_bearish_zero_strength_sideways :
    (detectTechnicalPatterns flatTechSeries).length = 1 ∧
    (detectTechnicalPatterns flatTechSeries).all
      (fun s => s.direction == SignalDir.bearish) = true ∧
    (fusePrediction (detectTechnicalPatterns flatTechSeries)).predictedDirection =
      PredDirection.sideways ∧
    (fusePrediction (detectTechnicalPatterns flatTechSeries)).predictedChange = 0 := by
  have hm : flatTechSeries.map (·.closePrice) = [100, 100, 100, 100, 100] := by decide
  have hrsi : calculateRSI [100, 100, 100, 100, 100] 14 = 50 := by decide
  have hmacd : calculateMACD [100, 100, 100, 100, 100] = ⟨0, 0, 0⟩ := by decide
  have hlatest : flatTechSeries.getD (flatTechSeries.length - 1) default =
      { closePrice := 100, sma50 := some 100, sma200 := some 100 } := by decide
  have hsig : detectTechnicalPatterns flatTechSeries =
      [{ source := SignalSource.technical
         name := "Death Cross Active"
         direction := SignalDir.bearish
         strength := min (|(100 - 100 : ℚ) / 100 * 100| * 5) 70
         description := "50-day SMA below 200-day SMA" }] := by
    rw [detectTechnicalPatterns, hm, hrsi, hmacd, hlatest]
    norm_num [flatTechSeries]
  rw [hsig]
  have hstrength : min (|(100 - 100 : ℚ) / 100 * 100| * 5) 70 = 0 := by
    norm_num
  rw [hstrength]
  refine ⟨rfl, rfl, ?_, ?_⟩ <;>
    norm_num [fusePrediction, fusionNetScore, totalWeight, bullishScore,
      bearishScore, signalWeight, sourceWeight]

end Predictor

end GoldFrontend
